import Mathlib

/-!
# Reeller: clone filling, playback control and teardown

A shallow embedding of `src/module/Filler.js`, `src/module/Reeller.js` and
`src/plugin/ScrollerPlugin.js`, with the properties of the fill plan, of clone
reconciliation, of the play state and of teardown.

Modelling conventions.

* JavaScript numbers that occur in the fill computation are exact integers or
  `NaN` (`JSNum`).  Pixel widths are far below `2^53`, so integer arithmetic
  is exact.  `NaN` arises from `n % 0` and from adding `undefined`.
* The `while` loop of `getCalcData` takes an iteration budget (`fuel`); a
  result `none` / `Failure.outOfFuel` means the budget was exhausted.  Results
  are stated for every sufficient budget (`fuelBound`).
* The DOM is a list of element values: the children of the wrapper in
  document order, which are all the container holds.  Elements carry no
  identity; `cloneNode(true)` copies the value (so a copy measures like its
  original), `classList.add` sets the clone mark, and removing the elements
  of `clones.slice(-count)` removes the last marked elements of the list.
* A thrown `TypeError` is `Failure.typeError`; the state after a throw is not
  modelled.
* Calls into collaborators (GSAP, observers, the plugin ticker) and emitted
  events are recorded in logs, in call order.  A visibility signal is an
  invocation of the intersection callback.
* Scroll positions and speeds are exact rationals; rounding of doubles is not
  modelled.  The variables the ticker callback closes over form `TickerState`.
* `this.events` is a plain object: its own properties, plus what it inherits
  from `Object.prototype` (or from the array that an assignment to `__proto__`
  makes its prototype).  Handlers are known by identity and their own effects
  are not modelled.
* The registry `Reeller.plugins` is given by its own properties, and every
  registered class instantiates like `ScrollerPlugin`, the plugin class of the
  repository.
* The track is laid out by the CSS box model (`layoutWidth`), independently of
  what `getCalcData` measures.
-/

namespace Cuberto

/-! ## JavaScript numbers -/

/-- A JavaScript number as it can occur in the fill computation: an exact
integer, or `NaN`. -/
inductive JSNum where
  | num (v : Int)
  | nan
  deriving DecidableEq, Repr

namespace JSNum

/-- JavaScript `a + b` on numbers; also covers `a + undefined`, which is `NaN`. -/
def add : JSNum → JSNum → JSNum
  | num a, num b => num (a + b)
  | _, _ => nan

/-- JavaScript `a > b`: false as soon as one side is `NaN`. -/
def gt : JSNum → JSNum → Bool
  | num a, num b => decide (b < a)
  | _, _ => false

/-- JavaScript `a < b`: false as soon as one side is `NaN`. -/
def lt : JSNum → JSNum → Bool
  | num a, num b => decide (a < b)
  | _, _ => false

/-- JavaScript unary minus. -/
def neg : JSNum → JSNum
  | num a => num (-a)
  | nan => nan

/-- JavaScript `a - b` on numbers; `NaN` as soon as one side is `NaN` or `undefined`. -/
def sub : JSNum → JSNum → JSNum
  | num a, num b => num (a - b)
  | _, _ => nan

/-- JavaScript `a >= b`: false as soon as one side is `NaN`. -/
def ge : JSNum → JSNum → Bool
  | num a, num b => decide (b ≤ a)
  | _, _ => false

end JSNum

/-- JavaScript `a % b` for non-negative integers: `NaN` when `b` is `0`. -/
def jsMod (a b : Nat) : JSNum :=
  if b = 0 then JSNum.nan else JSNum.num ((a % b : Nat) : Int)

/-- JavaScript `arr[idx]` read as a number: an index that is `NaN` or out of
range gives `undefined`, which turns into `NaN` under `+=`. -/
def jsIndex (arr : List Int) : JSNum → JSNum
  | JSNum.num i =>
    if 0 ≤ i then
      match arr.get? i.toNat with
      | some w => JSNum.num w
      | none => JSNum.nan
    else JSNum.nan
  | JSNum.nan => JSNum.nan

/-! ## Filler: data model -/

/-- The options of `Filler` that the computation reads (`Filler.defaultOptions`). -/
structure FillerOptions where
  autoUpdate : Bool
  clonesOverflow : Bool
  clonesFinish : Bool
  clonesMin : Int
  deriving DecidableEq, Repr

/-- The defaults of `Filler.defaultOptions`. -/
def Filler.defaultOptions : FillerOptions :=
  { autoUpdate := true, clonesOverflow := false, clonesFinish := false, clonesMin := 0 }

/-- A DOM element of the track: `markup` stands for its content (a deep copy
has the same markup), `isItem` says whether it matches `options.itemSelector`,
the three measurements are what `getCalcData` reads, `cloneClass` says whether
`options.cloneClassName` is in its class list. -/
structure Element where
  markup : Nat
  isItem : Bool
  offsetWidth : Int
  marginLeft : Int
  marginRight : Int
  cloneClass : Bool
  deriving DecidableEq, Repr, Inhabited

/-- The object built by `getCalcData`. -/
structure CalcData where
  clonesCount : Nat
  clonesWidth : JSNum
  containerWidth : Int
  fullWidth : JSNum
  itemWidth : List Int
  itemsWidth : Int
  lastIndex : JSNum
  deriving DecidableEq, Repr

/-- Why a call did not return normally. -/
inductive Failure where
  | typeError
  | outOfFuel
  deriving DecidableEq, Repr

/-- What a `Filler` does to its surroundings: an event emitted through
`trigger`, or `this.resizeObserver.disconnect()`. -/
inductive FillerEffect where
  | update (calcData : CalcData)
  | refresh
  | destroy
  | resizeDisconnect
  deriving DecidableEq, Repr

/-- The state of a `Filler` instance.  `wrapper` lists the children of
`this.wrapper` in document order, `calcData = none` stands for `{}`,
`resizeObserver` says whether `this.resizeObserver` is set, `log` records the
effects in the order they happened. -/
structure Filler where
  options : FillerOptions
  item : List Element
  wrapper : List Element
  clonesCount : Nat
  calcData : Option CalcData
  resizeObserver : Bool
  log : List FillerEffect
  deriving DecidableEq, Repr

/-! ## Filler.getCalcData -/

/-- The width of one item as measured on line 130:
`el.offsetWidth + parseInt(style.marginLeft) + parseInt(style.marginRight)`. -/
def measure (el : Element) : Int :=
  el.offsetWidth + el.marginLeft + el.marginRight

/-- The initial `data` object of `getCalcData` (lines 118-126). -/
def initData (containerOffsetWidth : Int) : CalcData :=
  { clonesCount := 0, clonesWidth := JSNum.num 0, containerWidth := containerOffsetWidth,
    fullWidth := JSNum.num 0, itemWidth := [], itemsWidth := 0, lastIndex := JSNum.num 0 }

/-- One round of `this.item.map` (lines 128-133). -/
def measureStep (data : CalcData) (el : Element) : CalcData :=
  let width := measure el
  { data with itemWidth := data.itemWidth ++ [width], itemsWidth := data.itemsWidth + width }

/-- The condition of the `while` loop (lines 139-141). -/
def loopCond (o : FillerOptions) (itemLength : Nat) (width : Int) (data : CalcData) : Bool :=
  JSNum.gt (JSNum.num width) data.clonesWidth ||
  decide ((data.clonesCount : Int) < o.clonesMin) ||
  (o.clonesFinish && JSNum.gt (jsMod data.clonesCount itemLength) (JSNum.num 0))

/-- The body of the `while` loop (lines 143-145). -/
def loopBody (itemLength : Nat) (data : CalcData) : CalcData :=
  let lastIndex := jsMod data.clonesCount itemLength
  { data with
    lastIndex := lastIndex
    clonesWidth := JSNum.add data.clonesWidth (jsIndex data.itemWidth lastIndex)
    clonesCount := data.clonesCount + 1 }

/-- The `while` loop (lines 138-146) run for at most `fuel` iterations. -/
def whileLoop (o : FillerOptions) (itemLength : Nat) (width : Int) : Nat → CalcData → Option CalcData
  | fuel, data =>
    if loopCond o itemLength width data then
      match fuel with
      | 0 => none
      | fuel + 1 => whileLoop o itemLength width fuel (loopBody itemLength data)
    else some data

/-- The method `Filler.getCalcData` (lines 117-151): `containerOffsetWidth` is
`this.container.offsetWidth`, `item` is `this.item`. -/
def getCalcData (fuel : Nat) (o : FillerOptions) (containerOffsetWidth : Int)
    (item : List Element) : Option CalcData :=
  let data := item.foldl measureStep (initData containerOffsetWidth)
  let itemLength := data.itemWidth.length
  let width := if o.clonesOverflow then data.containerWidth else data.containerWidth - data.itemsWidth
  (whileLoop o itemLength width fuel data).map
    fun d => { d with fullWidth := JSNum.add d.clonesWidth (JSNum.num d.itemsWidth) }

/-- A plain item of outer width `w` (no margins, no clone mark). -/
def plainItem (markup : Nat) (w : Int) : Element :=
  { markup := markup, isItem := true, offsetWidth := w, marginLeft := 0, marginRight := 0, cloneClass := false }

/-- Three plain items of width 100 (the items of scenarios A, B and C). -/
def threeItems : List Element := [plainItem 0 100, plainItem 1 100, plainItem 2 100]

/-! ## Filler: clones -/

/-- The clone made in one round of the loop of `addClones` (lines 82-83):
`this.item[(offset + i) % this.item.length].cloneNode(true)` with the clone
class added.  Reading `cloneNode` of `undefined` throws a `TypeError`. -/
def makeClone (item : List Element) (offset i : Nat) : Except Failure Element :=
  match jsMod (offset + i) item.length with
  | JSNum.num k =>
    match item.get? k.toNat with
    | some el => Except.ok { el with cloneClass := true }
    | none => Except.error Failure.typeError
  | JSNum.nan => Except.error Failure.typeError

/-- The `for` loop of `addClones` (lines 81-85): `n` rounds are left, `i` is
the loop variable, `clones` the array built so far. -/
def cloneLoop (item : List Element) (offset : Nat) :
    Nat → Nat → List Element → Except Failure (List Element)
  | 0, _, clones => Except.ok clones
  | n + 1, i, clones =>
    match makeClone item offset i with
    | Except.ok c => cloneLoop item offset n (i + 1) (clones ++ [c])
    | Except.error e => Except.error e

/-- The method `Filler.addClones` (lines 78-88). -/
def Filler.addClones (count : Nat) (offset : Nat) (s : Filler) : Except Failure Filler :=
  match cloneLoop s.item offset count 0 [] with
  | Except.ok clones => Except.ok { s with wrapper := s.wrapper ++ clones }
  | Except.error e => Except.error e

/-- JavaScript `arr.slice(-count)` for `count ≥ 0`: the last `count` elements,
and the whole array when `count` is `0` (`-0` is `0`). -/
def jsSliceLast {α : Type} (count : Nat) (arr : List α) : List α :=
  if count = 0 then arr else arr.drop (arr.length - count)

/-- Remove the first `n` clone-marked elements of a list. -/
def dropMarked : Nat → List Element → List Element
  | 0, l => l
  | _ + 1, [] => []
  | n + 1, e :: l => if e.cloneClass then dropMarked n l else e :: dropMarked (n + 1) l

/-- The clones of the track: `this.wrapper.getElementsByClassName(cloneClassName)`. -/
def Filler.clones (s : Filler) : List Element :=
  s.wrapper.filter fun e => e.cloneClass

/-- The method `Filler.removeClones` (lines 95-98): the elements of
`clones.slice(-count)`, which are the last ones carrying the clone class, are
removed from the track. -/
def Filler.removeClones (count : Nat) (s : Filler) : Filler :=
  let removed := jsSliceLast count s.clones
  { s with wrapper := (dropMarked removed.length s.wrapper.reverse).reverse }

/-- The method `Filler.setClonesCount` (lines 105-110). -/
def Filler.setClonesCount (count : Nat) (s : Filler) : Except Failure Filler :=
  if s.clonesCount = count then Except.ok s
  else
    match (if s.clonesCount < count then s.addClones (count - s.clonesCount) s.clonesCount
           else Except.ok s) with
    | Except.error e => Except.error e
    | Except.ok s1 =>
      let s2 := if s1.clonesCount > count then s1.removeClones (s1.clonesCount - count) else s1
      Except.ok { s2 with clonesCount := count }

/-- The method `Filler.update` (lines 156-160); `containerOffsetWidth` is what
`this.container.offsetWidth` reads during the call. -/
def Filler.update (fuel : Nat) (containerOffsetWidth : Int) (s : Filler) : Except Failure Filler :=
  match getCalcData fuel s.options containerOffsetWidth s.item with
  | none => Except.error Failure.outOfFuel
  | some d =>
    match Filler.setClonesCount d.clonesCount { s with calcData := some d } with
    | Except.error e => Except.error e
    | Except.ok s1 => Except.ok { s1 with log := s1.log ++ [FillerEffect.update d] }

/-- The method `Filler.refresh` (lines 167-174). -/
def Filler.refresh (fuel : Nat) (containerOffsetWidth : Int) (update : Bool) (s : Filler) :
    Except Failure Filler :=
  let s1 := s.removeClones 0
  let s2 : Filler :=
    { s1 with
      item := s1.wrapper.filter fun e => e.isItem
      calcData := none
      clonesCount := 0
      log := s1.log ++ [FillerEffect.refresh] }
  if update then s2.update fuel containerOffsetWidth else Except.ok s2

/-- The method `Filler.destroy` (lines 181-185). -/
def Filler.destroy (removeClones : Bool) (s : Filler) : Filler :=
  let s1 := if removeClones then s.removeClones 0 else s
  let s2 := if s1.resizeObserver then { s1 with log := s1.log ++ [FillerEffect.resizeDisconnect] } else s1
  { s2 with log := s2.log ++ [FillerEffect.destroy] }

/-- A filler as `refresh(false)` leaves it in the constructor, over a track
made of the given items, with the resize observer bound when `autoUpdate` is
set. -/
def Filler.fresh (o : FillerOptions) (items : List Element) : Filler :=
  { options := o, item := items, wrapper := items, clonesCount := 0, calcData := none,
    resizeObserver := o.autoUpdate, log := [FillerEffect.refresh] }

/-! ## Reference notions for the fill plan -/

/-- The cyclic prefix sum: the sum of `itemWidth[i mod itemCount]` for `i < n`. -/
def cycSum (ws : List Int) (n : Nat) : Int :=
  ((List.range n).map fun i => ws.getD (i % ws.length) 0).sum

/-- The width target: `containerWidth` under `clonesOverflow`, else
`containerWidth - itemsWidth`. -/
def fillTarget (o : FillerOptions) (containerWidth : Int) (ws : List Int) : Int :=
  if o.clonesOverflow then containerWidth else containerWidth - ws.sum

/-- The three stopping requirements on a clone count `n`: the width target is
met, the minimum is met, and under `clonesFinish` the cycle is complete. -/
def PlanOk (o : FillerOptions) (containerWidth : Int) (ws : List Int) (n : Nat) : Prop :=
  fillTarget o containerWidth ws ≤ cycSum ws n ∧ o.clonesMin ≤ (n : Int) ∧
    (o.clonesFinish = true → n % ws.length = 0)

instance (o : FillerOptions) (containerWidth : Int) (ws : List Int) (n : Nat) :
    Decidable (PlanOk o containerWidth ws n) := by
  unfold PlanOk; infer_instance

/-- The last index used by a plan of `n` clones: `(n - 1) mod itemCount`, and
the initial `0` when no clone was planned. -/
def lastIndexOf (ws : List Int) (n : Nat) : Nat :=
  if n = 0 then 0 else (n - 1) % ws.length

/-- The fill plan with `n` clones, as the reference definition describes it. -/
def planAt (containerWidth : Int) (ws : List Int) (n : Nat) : CalcData :=
  { clonesCount := n, clonesWidth := JSNum.num (cycSum ws n), containerWidth := containerWidth,
    fullWidth := JSNum.num (cycSum ws n + ws.sum), itemWidth := ws, itemsWidth := ws.sum,
    lastIndex := JSNum.num (lastIndexOf ws n) }

/-- An iteration budget that suffices for items of positive width. -/
def fuelBound (o : FillerOptions) (containerWidth : Int) (ws : List Int) : Nat :=
  ws.length * max (fillTarget o containerWidth ws).toNat o.clonesMin.toNat

/-- The state of the `data` object at the loop head after `n` rounds. -/
def loopState (containerWidth : Int) (ws : List Int) (n : Nat) : CalcData :=
  { planAt containerWidth ws n with fullWidth := JSNum.num 0 }

/-- Options of scenario C: overflow and `clonesFinish` on. -/
def finishOptions : FillerOptions :=
  { autoUpdate := true, clonesOverflow := true, clonesFinish := true, clonesMin := 0 }

/-- Options of scenario B: the defaults with `clonesMin` 5. -/
def minFiveOptions : FillerOptions :=
  { autoUpdate := true, clonesOverflow := false, clonesFinish := false, clonesMin := 5 }

/-- A copy of an element carrying the clone class. -/
def cloneOf (el : Element) : Element :=
  { el with cloneClass := true }

/-- The clones number `offset`, ..., `offset + count - 1` of the cyclic
sequence: clone `j` is a copy of `item[j mod itemCount]`. -/
def cyclicClones (item : List Element) (offset count : Nat) : List Element :=
  (List.range count).map fun j => cloneOf (item.getD ((offset + j) % item.length) default)

/-! ## The track as laid out -/

/-- A run of `update()` calls: each with its iteration budget and the container
width read during the call. -/
def Filler.updates : List (Nat × Int) → Filler → Except Failure Filler
  | [], s => Except.ok s
  | (fuel, cw) :: rest, s =>
    match s.update fuel cw with
    | Except.ok s1 => Filler.updates rest s1
    | Except.error e => Except.error e

/-- The room an element takes in the row of the track, by the CSS box model:
its left margin, its border box (`offsetWidth`) and its right margin.  This is
how the browser lays the track out, whatever the code measures. -/
def layoutWidth (el : Element) : Int :=
  el.marginLeft + el.offsetWidth + el.marginRight

/-- The width of a track: the sum of the rooms its elements take (a copy is
laid out like its original). -/
def trackWidth (track : List Element) : Int :=
  (track.map layoutWidth).sum

/-- The element covering position `x >= 0` of a track, with the offset of `x`
inside the room of that element. -/
def coverFrom : List Element → Int → Option (Element × Int)
  | [], _ => none
  | e :: rest, x =>
    if x < layoutWidth e then some (e, x) else coverFrom rest (x - layoutWidth e)

/-- The element covering track position `x`, with the inner offset; nothing
covers a negative position or one past the end. -/
def cover (track : List Element) (x : Int) : Option (Element × Int) :=
  if x < 0 then none else coverFrom track x

/-! ## Reeller: data model -/

/-- The options of `ScrollerPlugin` are left to the plugin; `Reeller` only
hands them over. -/
structure ScrollerPlugin where
  tickerFn : Bool
  tween : Bool
  deriving DecidableEq, Repr

/-- The options of `Reeller` that the lifecycle reads (`Reeller.defaultOptions`);
`plugins` lists the configured plugin names, `none` standing for `null`. -/
structure ReellerOptions where
  loop : Bool
  paused : Bool
  reversed : Bool
  autoStop : Bool
  plugins : Option (List String)
  filler : FillerOptions
  deriving DecidableEq, Repr

/-- The defaults of `Reeller.defaultOptions`. -/
def Reeller.defaultOptions : ReellerOptions :=
  { loop := true, paused := true, reversed := false, autoStop := true, plugins := none,
    filler := { autoUpdate := true, clonesOverflow := true, clonesFinish := false, clonesMin := 0 } }

/-- What a `Reeller` does to its surroundings, in call order: calls into GSAP,
into the intersection observer and into the plugins, and events emitted through
`trigger`. -/
inductive ReellerEffect where
  | gsapSet (target : String) (props : String)
  | tlResume
  | tlPause
  | tlReversed (value : Bool)
  | tlKill
  | tlInvalidate
  | intersectionDisconnect
  | tickerRemove (plugin : String)
  | tweenKill (plugin : String)
  | trigger (event : String)
  | triggerReverse (reversed : Bool)
  deriving DecidableEq, Repr

/-- The play state of the GSAP timeline as the calls `resume`, `pause` and
`reversed` leave it. -/
structure Timeline where
  paused : Bool
  reversed : Bool
  deriving DecidableEq, Repr

/-- The state of a `Reeller` instance: `intersectionObserver` says whether
`this.intersectionObserver` is set, `plugin` is `this.plugin` (`none` while
undefined) with the instances in key order. -/
structure Reeller where
  options : ReellerOptions
  paused : Bool
  tl : Timeline
  filler : Filler
  intersectionObserver : Bool
  plugin : Option (List (String × ScrollerPlugin))
  log : List ReellerEffect
  deriving DecidableEq, Repr

/-! ## Reeller: timeline start, play state, teardown -/

/-- The start value of `x` in `createTimeline` (lines 140-145), read from the
stored `calcData` (`none` is `{}`, whose fields are `undefined`). -/
def Reeller.startX (clonesOverflow : Bool) (calcData : Option CalcData) : JSNum :=
  if !clonesOverflow then
    match calcData with
    | some d => JSNum.neg (JSNum.sub d.fullWidth (JSNum.num d.containerWidth))
    | none => JSNum.nan
  else
    match calcData with
    | some d => JSNum.neg (JSNum.num d.itemsWidth)
    | none => JSNum.nan

/-- The method `Reeller.resume` (lines 200-206). -/
def Reeller.resume (r : Reeller) : Reeller :=
  { r with
    paused := false
    tl := { r.tl with paused := false }
    log := r.log ++ [ReellerEffect.gsapSet "container" "z: 0",
                     ReellerEffect.gsapSet "wrapper" "willChange: transform",
                     ReellerEffect.tlResume, ReellerEffect.trigger "resume"] }

/-- The method `Reeller.reverse` (lines 213-217). -/
def Reeller.reverse (reversed : Bool) (r : Reeller) : Reeller :=
  let r1 : Reeller :=
    { r with tl := { r.tl with reversed := reversed }
             log := r.log ++ [ReellerEffect.tlReversed reversed] }
  let r2 := r1.resume
  { r2 with log := r2.log ++ [ReellerEffect.triggerReverse reversed] }

/-- The method `Reeller.pause` (lines 222-228). -/
def Reeller.pause (r : Reeller) : Reeller :=
  { r with
    paused := true
    tl := { r.tl with paused := true }
    log := r.log ++ [ReellerEffect.gsapSet "container" "clearProps: z",
                     ReellerEffect.gsapSet "wrapper" "willChange: auto",
                     ReellerEffect.tlPause, ReellerEffect.trigger "pause"] }

/-- The callback given to `IntersectionObserver` in `bindIntersectionObserver`
(lines 163-169), called with `entries[0].isIntersecting`. -/
def Reeller.onIntersection (isIntersecting : Bool) (r : Reeller) : Reeller :=
  if isIntersecting then r.resume else r.pause

/-- What can happen to a controller: an explicit user call, or a visibility
signal delivered to the intersection callback. -/
inductive Action where
  | resume
  | pause
  | reverse (reversed : Bool)
  | visibility (isIntersecting : Bool)
  deriving DecidableEq, Repr

/-- One action applied to the controller. -/
def Reeller.step (r : Reeller) : Action → Reeller
  | Action.resume => r.resume
  | Action.pause => r.pause
  | Action.reverse reversed => r.reverse reversed
  | Action.visibility isIntersecting => r.onIntersection isIntersecting

/-- A sequence of actions applied in order. -/
def Reeller.run (r : Reeller) (actions : List Action) : Reeller :=
  actions.foldl Reeller.step r

/-- The method `ScrollerPlugin.destroy` (lines 133-139) of the plugin stored
under `name`: the new plugin state and the calls made. -/
def ScrollerPlugin.destroy (name : String) (p : ScrollerPlugin) :
    ScrollerPlugin × List ReellerEffect :=
  let (p1, e1) :=
    if p.tickerFn then ({ p with tickerFn := false }, [ReellerEffect.tickerRemove name])
    else (p, [])
  if p1.tween then (p1, e1 ++ [ReellerEffect.tweenKill name]) else (p1, e1)

/-- The loop of `destroyPlugins` (lines 192-194) over the instances. -/
def destroyInstances : List (String × ScrollerPlugin) →
    List (String × ScrollerPlugin) × List ReellerEffect
  | [] => ([], [])
  | (name, p) :: rest =>
    let (p1, e1) := p.destroy name
    let (rest1, e2) := destroyInstances rest
    ((name, p1) :: rest1, e1 ++ e2)

/-- The method `Reeller.destroyPlugins` (lines 191-195); `Object.values` of an
undefined `this.plugin` throws a `TypeError`. -/
def Reeller.destroyPlugins (r : Reeller) : Except Failure Reeller :=
  match r.plugin with
  | none => Except.error Failure.typeError
  | some instances =>
    let (instances1, effects) := destroyInstances instances
    Except.ok { r with plugin := some instances1, log := r.log ++ effects }

/-- The method `Reeller.destroy` (lines 260-270). -/
def Reeller.destroy (removeClones clearProps : Bool) (r : Reeller) : Except Failure Reeller :=
  let r1 := if r.intersectionObserver
    then { r with log := r.log ++ [ReellerEffect.intersectionDisconnect] } else r
  match (if r1.options.plugins.isSome then r1.destroyPlugins else Except.ok r1) with
  | Except.error e => Except.error e
  | Except.ok r2 =>
    let r3 : Reeller := { r2 with log := r2.log ++ [ReellerEffect.tlKill] }
    let r4 : Reeller := { r3 with filler := r3.filler.destroy removeClones }
    let r5 : Reeller := if clearProps
      then { r4 with log := r4.log ++ [ReellerEffect.gsapSet "container" "clearProps: overflow",
                                       ReellerEffect.gsapSet "wrapper" "clearProps: x,willChange"] }
      else r4
    Except.ok { r5 with log := r5.log ++ [ReellerEffect.trigger "destroy"] }

/-- The track of a filler is tiled by `items`: it holds the items followed by
the first `clonesCount` clones of the cyclic sequence. -/
def Tiled (items : List Element) (s : Filler) : Prop :=
  s.item = items ∧ s.wrapper = items ++ cyclicClones items 0 s.clonesCount

/-- Whether the most recent explicit user request in a sequence of actions is
`pause()` (visibility signals are not user requests; `reverse` resumes). -/
def lastExplicitIsPause (actions : List Action) : Bool :=
  match actions.reverse.find? (fun a => match a with
    | Action.visibility _ => false
    | _ => true) with
  | some Action.pause => true
  | _ => false

/-- Scenario E: the default options with the scroller plugin configured. -/
def scrollerOptions : ReellerOptions :=
  { Reeller.defaultOptions with plugins := some ["scroller"] }

/-! ## ScrollerPlugin: the ticker callback -/

/-- The options of `ScrollerPlugin` that the ticker callback reads
(`ScrollerPlugin.defaultOptions`); numbers are exact rationals. -/
structure ScrollerPluginOptions where
  speed : ℚ
  multiplier : ℚ
  threshold : ℚ
  ease : String
  overwrite : Bool
  bothDirection : Bool
  reversed : Bool
  stopOnEnd : Bool
  deriving DecidableEq, Repr

/-- The defaults of `ScrollerPlugin.defaultOptions`. -/
def ScrollerPlugin.defaultOptions : ScrollerPluginOptions :=
  { speed := 1, multiplier := 1 / 2, threshold := 1, ease := "expo.out", overwrite := true,
    bothDirection := true, reversed := false, stopOnEnd := false }

/-- The variables `lastScrollPos`, `lastDirection` and `reachedEnd` that the
ticker callback closes over (lines 69-71); `reachedEnd = false` is the moving
state, `reachedEnd = true` the settled one. -/
structure TickerState where
  lastScrollPos : ℚ
  lastDirection : ℚ
  reachedEnd : Bool
  deriving DecidableEq, Repr

/-- The closure variables as `init` sets them, `scrollPos` being what
`getScrollPos()` returns at that moment. -/
def TickerState.init (scrollPos : ℚ) : TickerState :=
  { lastScrollPos := scrollPos, lastDirection := 1, reachedEnd := true }

/-- A call made by the ticker callback: `gsap.killTweensOf(this.tl)`,
`this.tween = gsap.to(this.tl, ...)` with its target `timeScale`, duration,
ease and overwrite mode, or `this.tl.timeScale(value)`. -/
inductive TickEffect where
  | killTweensOf
  | tweenTo (timeScale : ℚ) (duration : ℚ) (ease : String) (overwrite : Bool)
  | setTimeScale (value : ℚ)
  deriving DecidableEq, Repr

/-- JavaScript `Math.sign` on numbers. -/
def jsSign (v : ℚ) : ℚ :=
  if 0 < v then 1 else if v < 0 then -1 else 0

/-- The velocity of a tick after the direction adjustments (lines 75-83). -/
def adjustedVelocity (o : ScrollerPluginOptions) (lastScrollPos scrollPos : ℚ) : ℚ :=
  let velocity := scrollPos - lastScrollPos
  let velocity := if !o.bothDirection then |velocity| else velocity
  if o.reversed then velocity * -1 else velocity

/-- The target speed of a moving tick (lines 97-99). -/
def targetTimeScale (o : ScrollerPluginOptions) (velocity : ℚ) : ℚ :=
  let delta := velocity * o.multiplier
  if delta > 0 then max o.threshold delta else min (-o.threshold) delta

/-- The ticker callback `this.tickerFn` (lines 73-126): `paused` is
`this.reeller.paused` and `scrollPos` is what `getScrollPos()` returns during
the tick.  Returns the closure variables after the tick and the calls made. -/
def tickerFn (o : ScrollerPluginOptions) (paused : Bool) (scrollPos : ℚ) (st : TickerState) :
    TickerState × List TickEffect :=
  let velocity := adjustedVelocity o st.lastScrollPos scrollPos
  if paused then
    let lastDirection := jsSign velocity
    let killed : List TickEffect := if !st.reachedEnd then [TickEffect.killTweensOf] else []
    ({ lastScrollPos := scrollPos, lastDirection := lastDirection, reachedEnd := true },
      killed ++ [TickEffect.setTimeScale (lastDirection * o.threshold)])
  else if velocity ≠ 0 then
    ({ lastScrollPos := scrollPos, lastDirection := jsSign velocity, reachedEnd := false },
      [TickEffect.tweenTo (targetTimeScale o velocity) o.speed o.ease o.overwrite])
  else if !st.reachedEnd then
    let timeScale := if o.stopOnEnd then 0 else st.lastDirection * o.threshold
    ({ lastScrollPos := scrollPos, lastDirection := jsSign velocity, reachedEnd := true },
      [TickEffect.killTweensOf, TickEffect.tweenTo timeScale o.speed o.ease o.overwrite])
  else
    ({ lastScrollPos := scrollPos, lastDirection := jsSign velocity, reachedEnd := st.reachedEnd },
      [])

/-- A sequence of ticks, each with the controller's paused flag and the scroll
position read: the closure variables at the end and the calls of every tick. -/
def tickerRun (o : ScrollerPluginOptions) :
    List (Bool × ℚ) → TickerState → TickerState × List (List TickEffect)
  | [], st => (st, [])
  | (paused, scrollPos) :: rest, st =>
    let r := tickerFn o paused scrollPos st
    let rs := tickerRun o rest r.1
    (rs.1, r.2 :: rs.2)

/-- Whether a call starts a tween. -/
def TickEffect.startsTween : TickEffect → Bool
  | TickEffect.tweenTo _ _ _ _ => true
  | _ => false

/-- Options of scenario D with the stop-on-end policy. -/
def stopOnEndOptions : ScrollerPluginOptions :=
  { ScrollerPlugin.defaultOptions with stopOnEnd := true }

/-! ## Base: events -/

/-- Reading `obj[key]` on a plain object given by its own properties in
insertion order; `none` is `undefined`. -/
def objGet {α : Type} (key : String) : List (String × α) → Option α
  | [] => none
  | (k, v) :: rest => if k = key then some v else objGet key rest

/-- The assignment `obj[key] = value`: an existing property keeps its place, a
new one goes last. -/
def objSet {α : Type} (key : String) (value : α) : List (String × α) → List (String × α)
  | [] => [(key, value)]
  | (k, v) :: rest => if k = key then (k, value) :: rest else (k, v) :: objSet key value rest

/-- A callback function, known by its identity. -/
abbrev Handler := Nat

/-- An argument passed to a handler: the emitting instance, or one of the extra
parameters of `trigger`. -/
inductive Arg where
  | emitter
  | param (value : Nat)
  deriving DecidableEq, Repr

/-- One call `f.call(thisArg, ...args)` made by `trigger`. -/
structure Invocation where
  handler : Handler
  thisArg : Arg
  args : List Arg
  deriving DecidableEq, Repr

/-- The string-named properties every plain object inherits from
`Object.prototype`. -/
def objectPrototypeNames : List String :=
  ["constructor", "__defineGetter__", "__defineSetter__", "hasOwnProperty",
   "__lookupGetter__", "__lookupSetter__", "isPrototypeOf", "propertyIsEnumerable",
   "toString", "valueOf", "__proto__", "toLocaleString"]

/-- The string-named properties of `Array.prototype` (ECMAScript 2023), which
an object inherits once an array has become its prototype. -/
def arrayPrototypeNames : List String :=
  ["at", "concat", "constructor", "copyWithin", "entries", "every", "fill", "filter", "find",
   "findIndex", "findLast", "findLastIndex", "flat", "flatMap", "forEach", "includes",
   "indexOf", "join", "keys", "lastIndexOf", "map", "pop", "push", "reduce", "reduceRight",
   "reverse", "shift", "slice", "some", "sort", "splice", "toLocaleString", "toReversed",
   "toSorted", "toSpliced", "toString", "unshift", "values", "with"]

/-- What reading `this.events[key]` gives: `undefined`, an array of handlers,
or some other value (a function, an object, a number), of which only the
truthiness matters. -/
inductive PropValue where
  | undefined
  | array (handlers : List Handler)
  | other (truthy : Bool)
  deriving DecidableEq, Repr

/-- The state of a `Base` instance: `events` lists the own properties of
`this.events`, each an array of handlers; `proto` is `none` while the prototype
of `this.events` is `Object.prototype`, and holds the array that an assignment
to `this.events['__proto__']` has put in its place. -/
structure Base where
  events : List (String × List Handler)
  proto : Option (List Handler) := none
  deriving DecidableEq, Repr

/-- The constructor of `Base` (lines 5-7): `this.events = {}`. -/
def Base.new : Base :=
  { events := [] }

/-- What `this.events` inherits under a name it has no own property for: from
`Object.prototype`, or from the array that became its prototype (its `length`,
its elements, and the methods of `Array.prototype` and `Object.prototype`). -/
def Base.inherited (key : String) (b : Base) : PropValue :=
  match b.proto with
  | none => if objectPrototypeNames.contains key then PropValue.other true else PropValue.undefined
  | some arr =>
    if key = "length" then PropValue.other (decide (arr.length ≠ 0))
    else if (List.range arr.length).any (fun i => toString i == key) then PropValue.other true
    else if arrayPrototypeNames.contains key || objectPrototypeNames.contains key
      then PropValue.other true
    else PropValue.undefined

/-- Reading `this.events[key]`: `__proto__` is an accessor giving the
prototype; otherwise the own property, or else what is inherited. -/
def Base.read (key : String) (b : Base) : PropValue :=
  if key = "__proto__" then
    match b.proto with
    | some arr => PropValue.array arr
    | none => PropValue.other true
  else
    match objGet key b.events with
    | some handlers => PropValue.array handlers
    | none => b.inherited key

/-- The assignment `this.events[key] = value` of an array: `__proto__` is an
accessor whose setter makes the array the prototype; any other name becomes or
stays an own property. -/
def Base.assign (key : String) (value : List Handler) (b : Base) : Base :=
  if key = "__proto__" then { b with proto := some value }
  else { b with events := objSet key value b.events }

/-- The method `Base.on` (lines 15-18): `this.events[event]` is set to `[]`
unless it is an array, then the callback is pushed onto it. -/
def Base.on (event : String) (callback : Handler) (b : Base) : Base :=
  let b1 :=
    match b.read event with
    | PropValue.array _ => b
    | _ => b.assign event []
  match b1.read event with
  | PropValue.array handlers => b1.assign event (handlers ++ [callback])
  | _ => b1

/-- The method `Base.off` (lines 26-32); `callback = none` is an omitted
handler.  Calling `filter` on `undefined`, or on a value that has no `filter`,
throws a `TypeError`. -/
def Base.off (event : String) (callback : Option Handler) (b : Base) : Except Failure Base :=
  match callback with
  | some cb =>
    match b.read event with
    | PropValue.array handlers =>
      Except.ok (b.assign event (handlers.filter fun f => f ≠ cb))
    | _ => Except.error Failure.typeError
  | none => Except.ok (b.assign event [])

/-- The method `Base.trigger` (lines 40-43): the calls made, in order.  A falsy
`this.events[event]` returns at once; a truthy value that is not an array has
no `forEach`, and calling it throws a `TypeError`. -/
def Base.trigger (event : String) (params : List Nat) (b : Base) :
    Except Failure (List Invocation) :=
  match b.read event with
  | PropValue.undefined => Except.ok []
  | PropValue.other false => Except.ok []
  | PropValue.other true => Except.error Failure.typeError
  | PropValue.array handlers =>
    Except.ok (handlers.map fun f =>
      { handler := f, thisArg := Arg.emitter, args := Arg.emitter :: params.map Arg.param })

/-- The handlers of an event: the array stored under its name as an own
property, empty when there is none. -/
def Base.handlers (event : String) (b : Base) : List Handler :=
  (objGet event b.events).getD []

/-- A sequence of `on(event, handler)` calls. -/
def Base.subscribe (subs : List (String × Handler)) (b : Base) : Base :=
  subs.foldl (fun acc sub => acc.on sub.1 sub.2) b

/-! ## Reeller.use -/

/-- A plugin class as `Reeller.use` sees it: `pluginName` is `none` when
`typeof plugin.pluginName` is not `'string'`; `ident` tells classes apart. -/
structure Plugin where
  pluginName : Option String
  ident : Nat
  deriving DecidableEq, Repr

/-- The static method `Reeller.use` (lines 97-103) on the registry
`Reeller.plugins`: the registry after the call, and the error thrown if any. -/
def Reeller.use : List Plugin → List (String × Plugin) → List (String × Plugin) × Option Failure
  | [], registry => (registry, none)
  | plugin :: rest, registry =>
    match plugin.pluginName with
    | none => (registry, some Failure.typeError)
    | some name => Reeller.use rest (objSet name plugin registry)

/-- The registry after storing the given plugins in order, each under its name. -/
def registerAll (plugins : List Plugin) (registry : List (String × Plugin)) :
    List (String × Plugin) :=
  plugins.foldl (fun acc p =>
    match p.pluginName with
    | some name => objSet name p acc
    | none => acc) registry

/-- The plugins listed before the first one without a string name. -/
def validPrefix (plugins : List Plugin) : List Plugin :=
  plugins.takeWhile fun p => p.pluginName.isSome

/-- The scroller plugin class. -/
def scrollerPlugin : Plugin :=
  { pluginName := some "scroller", ident := 0 }

/-- A plugin class without a `pluginName`. -/
def namelessPlugin : Plugin :=
  { pluginName := none, ident := 1 }

/-- An item of width zero. -/
def zeroWidthItem : Element :=
  plainItem 0 0

/-- The closure variables at the start of the next tick, after the given ticks
of a plugin whose `init` read the scroll position `start`. -/
def tickerStateAfter (o : ScrollerPluginOptions) (start : ℚ) (inputs : List (Bool × ℚ)) :
    TickerState :=
  (tickerRun o inputs (TickerState.init start)).1

/-- A child of the wrapper that does not match the item selector, 40 wide. -/
def spacer : Element :=
  { markup := 9, isItem := false, offsetWidth := 40, marginLeft := 0, marginRight := 0,
    cloneClass := false }

/-- A filler with overflow on whose track is item 0, a spacer, item 1, before
its first `refresh`. -/
def spacerFiller : Filler :=
  { options := { autoUpdate := true, clonesOverflow := true, clonesFinish := false,
                 clonesMin := 0 },
    item := [], wrapper := [plainItem 0 100, spacer, plainItem 1 100], clonesCount := 0,
    calcData := none, resizeObserver := false, log := [] }

/-! ## Construction -/

/-- The constructor of `Filler` (lines 37-60) over a wrapper with the given
children: `this.item = []`, `refresh(false)`, then the resize observer is bound
when `autoUpdate` is set and `update()` is run otherwise.  The observer calls
back later, not inside the constructor. -/
def Filler.construct (fuel : Nat) (containerOffsetWidth : Int) (o : FillerOptions)
    (wrapper : List Element) : Except Failure Filler :=
  let s0 : Filler :=
    { options := o, item := [], wrapper := wrapper, clonesCount := 0, calcData := none,
      resizeObserver := false, log := [] }
  match s0.refresh fuel containerOffsetWidth false with
  | Except.error e => Except.error e
  | Except.ok s1 =>
    if o.autoUpdate then Except.ok { s1 with resizeObserver := true }
    else s1.update fuel containerOffsetWidth

/-- The loop of `Reeller.initPlugins` (lines 178-185) over the configured
names: a name found in the registry `Reeller.plugins` gets an instance (for
`ScrollerPlugin`, the plugin class of this repository: ticker callback
registered, no tween yet), a name not found is reported and skipped. -/
def initInstances (registry : List (String × Plugin)) :
    List String → List (String × ScrollerPlugin) → List (String × ScrollerPlugin)
  | [], instances => instances
  | name :: rest, instances =>
    match objGet name registry with
    | some _ =>
      initInstances registry rest (objSet name { tickerFn := true, tween := false } instances)
    | none => initInstances registry rest instances

/-- The constructor of `Reeller` (lines 71-83) with the registry
`Reeller.plugins` as it stands: `this.paused`, `createFiller`, `createTimeline`,
the intersection observer under `autoStop`, `initPlugins` when plugins are
configured.  The log starts empty: effects are recorded from the end of
construction on. -/
def Reeller.construct (registry : List (String × Plugin)) (fuel : Nat)
    (containerOffsetWidth : Int) (o : ReellerOptions) (wrapper : List Element) :
    Except Failure Reeller :=
  match Filler.construct fuel containerOffsetWidth o.filler wrapper with
  | Except.error e => Except.error e
  | Except.ok filler =>
    Except.ok
      { options := o, paused := o.paused,
        tl := { paused := o.paused, reversed := o.reversed },
        filler := filler, intersectionObserver := o.autoStop,
        plugin := o.plugins.map fun names => initInstances registry names [],
        log := [] }

/-- The registry after `Reeller.use(ScrollerPlugin)`. -/
def scrollerRegistry : List (String × Plugin) :=
  (Reeller.use [scrollerPlugin] []).1

/-! ## Theorems: the fill loop -/

theorem foldl_measureStep (item : List Element) (d : CalcData) :
    item.foldl measureStep d =
      { d with itemWidth := d.itemWidth ++ item.map measure
               itemsWidth := d.itemsWidth + (item.map measure).sum } := by
  induction item generalizing d with
  | nil => simp
  | cons e l ih =>
    simp only [List.foldl_cons, ih, measureStep, List.map_cons, List.sum_cons,
      List.append_assoc, List.singleton_append, add_assoc]

theorem cycSum_zero (ws : List Int) : cycSum ws 0 = 0 := by
  simp [cycSum]

theorem cycSum_succ (ws : List Int) (n : Nat) :
    cycSum ws (n + 1) = cycSum ws n + ws.getD (n % ws.length) 0 := by
  simp [cycSum, List.range_succ]

theorem getD_pos {ws : List Int} (hpos : ∀ w ∈ ws, 0 < w) {i : Nat} (hi : i < ws.length) :
    0 < ws.getD i 0 := by
  rw [List.getD_eq_getElem _ _ hi]
  exact hpos _ (List.getElem_mem hi)

theorem le_cycSum {ws : List Int} (hne : ws ≠ []) (hpos : ∀ w ∈ ws, 0 < w) (n : Nat) :
    (n : Int) ≤ cycSum ws n := by
  have hlen : 0 < ws.length := List.length_pos.mpr hne
  induction n with
  | zero => simp [cycSum_zero]
  | succ n ih =>
    rw [cycSum_succ]
    have := getD_pos hpos (Nat.mod_lt n hlen)
    push_cast
    omega

theorem jsIndex_jsMod {ws : List Int} (hne : ws ≠ []) (n : Nat) :
    jsIndex ws (jsMod n ws.length) = JSNum.num (ws.getD (n % ws.length) 0) := by
  have hlen : 0 < ws.length := List.length_pos.mpr hne
  have hlt : n % ws.length < ws.length := Nat.mod_lt n hlen
  rw [jsMod, if_neg (Nat.pos_iff_ne_zero.mp hlen)]
  simp only [jsIndex]
  rw [if_pos (Int.ofNat_nonneg _), Int.toNat_ofNat, List.get?_eq_getElem?,
    List.getElem?_eq_getElem hlt, List.getD_eq_getElem _ _ hlt]

theorem loopBody_loopState {ws : List Int} (hne : ws ≠ []) (cw : Int) (n : Nat) :
    loopBody ws.length (loopState cw ws n) = loopState cw ws (n + 1) := by
  have hlen : 0 < ws.length := List.length_pos.mpr hne
  have h := jsIndex_jsMod hne n
  simp only [loopBody, loopState, planAt] at h ⊢
  rw [h]
  simp [jsMod, Nat.pos_iff_ne_zero.mp hlen, JSNum.add, cycSum_succ, lastIndexOf]

theorem loopCond_loopState {ws : List Int} (hne : ws ≠ []) (o : FillerOptions) (cw : Int) (n : Nat) :
    loopCond o ws.length (fillTarget o cw ws) (loopState cw ws n) = true ↔ ¬ PlanOk o cw ws n := by
  have hlen : 0 < ws.length := List.length_pos.mpr hne
  simp only [loopCond, loopState, planAt, PlanOk, jsMod, Nat.pos_iff_ne_zero.mp hlen, JSNum.gt,
    if_false, Bool.or_eq_true, Bool.and_eq_true, decide_eq_true_eq]
  constructor
  · rintro ((h | h) | ⟨h1, h2⟩)
    · intro hp; omega
    · intro hp; omega
    · intro hp
      have := hp.2.2 h1
      omega
  · intro hp
    by_contra hc
    push_neg at hc
    apply hp
    refine ⟨by omega, by omega, ?_⟩
    intro hf
    have := hc.2 hf
    omega

theorem whileLoop_stop (o : FillerOptions) (len : Nat) (width : Int) (fuel : Nat) (d : CalcData)
    (h : loopCond o len width d = false) : whileLoop o len width fuel d = some d := by
  cases fuel <;> simp [whileLoop, h]

theorem whileLoop_step (o : FillerOptions) (len : Nat) (width : Int) (fuel : Nat) (d : CalcData)
    (h : loopCond o len width d = true) :
    whileLoop o len width (fuel + 1) d = whileLoop o len width fuel (loopBody len d) := by
  rw [whileLoop]; simp [h]

theorem whileLoop_exhausted (o : FillerOptions) (len : Nat) (width : Int) (d : CalcData)
    (h : loopCond o len width d = true) : whileLoop o len width 0 d = none := by
  rw [whileLoop]; simp [h]

theorem whileLoop_loopState {ws : List Int} (hne : ws ≠ []) (o : FillerOptions) (cw : Int)
    (N0 : Nat) (hN0 : PlanOk o cw ws N0) :
    ∀ (d n fuel : Nat), n + d = N0 → d ≤ fuel →
      ∃ N, n ≤ N ∧ N ≤ N0 ∧
        whileLoop o ws.length (fillTarget o cw ws) fuel (loopState cw ws n)
          = some (loopState cw ws N) ∧
        PlanOk o cw ws N ∧ ∀ m, n ≤ m → m < N → ¬ PlanOk o cw ws m := by
  intro d
  induction d with
  | zero =>
    intro n fuel hn _
    have hnN : n = N0 := by omega
    subst hnN
    refine ⟨n, le_refl _, le_refl _, ?_, hN0, fun m h1 h2 => by omega⟩
    apply whileLoop_stop
    rw [← Bool.not_eq_true, loopCond_loopState hne]
    exact not_not.mpr hN0
  | succ d ih =>
    intro n fuel hn hfuel
    by_cases hp : PlanOk o cw ws n
    · refine ⟨n, le_refl _, by omega, ?_, hp, fun m h1 h2 => by omega⟩
      apply whileLoop_stop
      rw [← Bool.not_eq_true, loopCond_loopState hne]
      exact not_not.mpr hp
    · obtain ⟨fuel, rfl⟩ : ∃ f, fuel = f + 1 := ⟨fuel - 1, by omega⟩
      obtain ⟨N, h1, h2, h3, h4, h5⟩ := ih (n + 1) fuel (by omega) (by omega)
      refine ⟨N, by omega, h2, ?_, h4, ?_⟩
      · rw [whileLoop_step _ _ _ _ _ ((loopCond_loopState hne o cw n).mpr hp),
          loopBody_loopState hne, h3]
      · intro m hm1 hm2
        by_cases hmn : m = n
        · subst hmn; exact hp
        · exact h5 m (by omega) hm2

theorem planOk_fuelBound {ws : List Int} (hne : ws ≠ []) (hpos : ∀ w ∈ ws, 0 < w)
    (o : FillerOptions) (cw : Int) : PlanOk o cw ws (fuelBound o cw ws) := by
  have hlen : 0 < ws.length := List.length_pos.mpr hne
  have hge : max (fillTarget o cw ws).toNat o.clonesMin.toNat ≤ fuelBound o cw ws :=
    Nat.le_mul_of_pos_left _ hlen
  have hsum := le_cycSum hne hpos (fuelBound o cw ws)
  have h1 : (fillTarget o cw ws).toNat ≤ fuelBound o cw ws := le_trans (le_max_left _ _) hge
  have h2 : o.clonesMin.toNat ≤ fuelBound o cw ws := le_trans (le_max_right _ _) hge
  refine ⟨by omega, by omega, fun _ => ?_⟩
  exact Nat.mul_mod_right _ _

theorem measure_map_pos {item : List Element} (hpos : ∀ el ∈ item, 0 < measure el) :
    ∀ w ∈ item.map measure, 0 < w := by
  intro w hw
  obtain ⟨el, hel, rfl⟩ := List.mem_map.mp hw
  exact hpos el hel

/-- For items of positive width and enough fuel, `getCalcData` returns the plan
at the least clone count that meets the three stopping requirements. -/
theorem getCalcData_plan (o : FillerOptions) (cw : Int) (item : List Element)
    (hne : item ≠ []) (hpos : ∀ el ∈ item, 0 < measure el) (fuel : Nat)
    (hfuel : fuelBound o cw (item.map measure) ≤ fuel) :
    ∃ N, getCalcData fuel o cw item = some (planAt cw (item.map measure) N) ∧
      PlanOk o cw (item.map measure) N ∧ ∀ m, m < N → ¬ PlanOk o cw (item.map measure) m := by
  have hne2 : item.map measure ≠ [] := by simpa using hne
  have hpos2 := measure_map_pos hpos
  obtain ⟨N, _, _, h3, h4, h5⟩ :=
    whileLoop_loopState hne2 o cw _ (planOk_fuelBound hne2 hpos2 o cw)
      (fuelBound o cw (item.map measure)) 0 fuel (by omega) hfuel
  refine ⟨N, ?_, h4, fun m hm => h5 m (Nat.zero_le _) hm⟩
  have h0 : item.foldl measureStep (initData cw) = loopState cw (item.map measure) 0 := by
    rw [foldl_measureStep]
    simp [initData, loopState, planAt, cycSum_zero, lastIndexOf]
  have hw : (if o.clonesOverflow then (loopState cw (item.map measure) 0).containerWidth
      else (loopState cw (item.map measure) 0).containerWidth
        - (loopState cw (item.map measure) 0).itemsWidth) = fillTarget o cw (item.map measure) := by
    simp [loopState, planAt, fillTarget]
  have hl : (loopState cw (item.map measure) 0).itemWidth.length = (item.map measure).length := rfl
  simp only [getCalcData, h0, hw, hl, h3, Option.map_some']
  simp [loopState, planAt, JSNum.add]

theorem whileLoop_mono (o : FillerOptions) (len : Nat) (width : Int) :
    ∀ (fuel : Nat) (d r : CalcData), whileLoop o len width fuel d = some r →
      ∀ fuel2, fuel ≤ fuel2 → whileLoop o len width fuel2 d = some r := by
  intro fuel
  induction fuel with
  | zero =>
    intro d r h fuel2 _
    cases hc : loopCond o len width d with
    | true => rw [whileLoop_exhausted _ _ _ _ hc] at h; cases h
    | false => rw [whileLoop_stop _ _ _ _ _ hc] at h ⊢; exact h
  | succ fuel ih =>
    intro d r h fuel2 hle
    cases hc : loopCond o len width d with
    | true =>
      obtain ⟨f, rfl⟩ : ∃ f, fuel2 = f + 1 := ⟨fuel2 - 1, by omega⟩
      rw [whileLoop_step _ _ _ _ _ hc] at h ⊢
      exact ih _ _ h f (by omega)
    | false => rw [whileLoop_stop _ _ _ _ _ hc] at h ⊢; exact h

theorem getCalcData_mono (o : FillerOptions) (cw : Int) (item : List Element) (fuel fuel2 : Nat)
    (d : CalcData) (h : getCalcData fuel o cw item = some d) (hle : fuel ≤ fuel2) :
    getCalcData fuel2 o cw item = some d := by
  simp only [getCalcData, Option.map_eq_some'] at h ⊢
  obtain ⟨r, hr, hd⟩ := h
  exact ⟨r, whileLoop_mono _ _ _ _ _ _ hr _ hle, hd⟩

/-- Total correctness of `getCalcData` on items of positive width: there is one
clone count `N`, the least that meets the stopping requirements, such that
every run with enough fuel returns the plan at `N` and no run returns anything
else. -/
theorem getCalcData_result (o : FillerOptions) (cw : Int) (item : List Element)
    (hne : item ≠ []) (hpos : ∀ el ∈ item, 0 < measure el) :
    ∃ N, PlanOk o cw (item.map measure) N ∧
      (∀ m, m < N → ¬ PlanOk o cw (item.map measure) m) ∧
      (∀ fuel, fuelBound o cw (item.map measure) ≤ fuel →
        getCalcData fuel o cw item = some (planAt cw (item.map measure) N)) ∧
      ∀ fuel d, getCalcData fuel o cw item = some d → d = planAt cw (item.map measure) N := by
  obtain ⟨N, h1, h2, h3⟩ := getCalcData_plan o cw item hne hpos _ (le_refl _)
  refine ⟨N, h2, h3, fun fuel hf => getCalcData_mono _ _ _ _ _ _ h1 hf, fun fuel d hd => ?_⟩
  have ha := getCalcData_mono _ _ _ _ (max fuel (fuelBound o cw (item.map measure))) _ hd
    (le_max_left _ _)
  have hb := getCalcData_mono _ _ _ _ (max fuel (fuelBound o cw (item.map measure))) _ h1
    (le_max_right _ _)
  rw [ha] at hb
  exact Option.some.inj hb

/-! ## Claims on the fill plan -/

/-- C1 (coverage, P1): on a non-empty item list of positive widths,
`getCalcData` returns for every sufficient iteration budget, and whatever it
returns satisfies `fullWidth >= containerWidth` when `clonesOverflow` is off
and `clonesWidth >= containerWidth` when it is on. -/
theorem coverage (o : FillerOptions) (cw : Int) (item : List Element)
    (hne : item ≠ []) (hpos : ∀ el ∈ item, 0 < measure el) :
    (∀ fuel, fuelBound o cw (item.map measure) ≤ fuel →
      (getCalcData fuel o cw item).isSome = true) ∧
    ∀ fuel d, getCalcData fuel o cw item = some d →
      d.containerWidth = cw ∧
      (o.clonesOverflow = false → JSNum.ge d.fullWidth (JSNum.num d.containerWidth) = true) ∧
      (o.clonesOverflow = true → JSNum.ge d.clonesWidth (JSNum.num d.containerWidth) = true) := by
  obtain ⟨N, hok, _, hret, huniq⟩ := getCalcData_result o cw item hne hpos
  refine ⟨fun fuel hf => by rw [hret fuel hf]; rfl, fun fuel d hd => ?_⟩
  rw [huniq fuel d hd]
  have ht := hok.1
  refine ⟨rfl, fun hov => ?_, fun hov => ?_⟩
  · simp only [planAt, JSNum.ge, decide_eq_true_eq]
    simp only [fillTarget, hov] at ht
    simp at ht
    omega
  · simp only [planAt, JSNum.ge, decide_eq_true_eq]
    simpa [fillTarget, hov] using ht

/-- Witness of C1 on scenario A (container 500, three items of width 100,
default options): the plan is returned and `fullWidth >= containerWidth`. -/
theorem coverage_witness :
    threeItems ≠ [] ∧ (∀ el ∈ threeItems, 0 < measure el) ∧
    ∃ d, getCalcData 600 Filler.defaultOptions 500 threeItems = some d ∧
      JSNum.ge d.fullWidth (JSNum.num d.containerWidth) = true := by
  have hne : threeItems ≠ [] := by decide
  have hpos : ∀ el ∈ threeItems, 0 < measure el := by decide
  have h := coverage Filler.defaultOptions 500 threeItems hne hpos
  obtain ⟨d, hd⟩ := Option.isSome_iff_exists.mp (h.1 600 (by decide))
  exact ⟨hne, hpos, d, hd, (h.2 600 d hd).2.1 rfl⟩

/-- C2 (fill plan equals its reference definition): on a non-empty item list
of positive widths there is a clone count `N`, the least `n` with cyclic prefix
sum `>= target`, `n >= clonesMin` and (under `clonesFinish`) `n mod itemCount = 0`,
such that `getCalcData` returns for every sufficient budget and every result
has `clonesCount = N`, `clonesWidth` the cyclic prefix sum of `N` widths,
`itemsWidth` the sum of the item widths and `fullWidth = clonesWidth + itemsWidth`. -/
theorem fill_plan_reference (o : FillerOptions) (cw : Int) (item : List Element)
    (hne : item ≠ []) (hpos : ∀ el ∈ item, 0 < measure el) :
    ∃ N, PlanOk o cw (item.map measure) N ∧
      (∀ m, m < N → ¬ PlanOk o cw (item.map measure) m) ∧
      (∀ fuel, fuelBound o cw (item.map measure) ≤ fuel →
        (getCalcData fuel o cw item).isSome = true) ∧
      ∀ fuel d, getCalcData fuel o cw item = some d →
        d.clonesCount = N ∧
        d.clonesWidth = JSNum.num (cycSum (item.map measure) N) ∧
        d.itemWidth = item.map measure ∧
        d.itemsWidth = (item.map measure).sum ∧
        d.fullWidth = JSNum.add d.clonesWidth (JSNum.num d.itemsWidth) := by
  obtain ⟨N, hok, hleast, hret, huniq⟩ := getCalcData_result o cw item hne hpos
  refine ⟨N, hok, hleast, fun fuel hf => by rw [hret fuel hf]; rfl, fun fuel d hd => ?_⟩
  rw [huniq fuel d hd]
  exact ⟨rfl, rfl, rfl, rfl, rfl⟩

/-- Witness of C2, scenario A: container 500, widths 100, 100, 100, overflow
off, `clonesMin` 0, finish off gives `clonesCount = 2` and `clonesWidth = 200`,
and 2 is the least count that meets the stopping requirements. -/
theorem fill_plan_reference_witness :
    ∃ d, getCalcData 600 Filler.defaultOptions 500 threeItems = some d ∧
      d.clonesCount = 2 ∧ d.clonesWidth = JSNum.num 200 ∧
      PlanOk Filler.defaultOptions 500 (threeItems.map measure) d.clonesCount ∧
      ∀ m, m < d.clonesCount → ¬ PlanOk Filler.defaultOptions 500 (threeItems.map measure) m := by
  obtain ⟨N, hok, hleast, _, hval⟩ :=
    fill_plan_reference Filler.defaultOptions 500 threeItems (by decide) (by decide)
  have he : getCalcData 600 Filler.defaultOptions 500 threeItems
      = some { clonesCount := 2, clonesWidth := JSNum.num 200, containerWidth := 500,
               fullWidth := JSNum.num 500, itemWidth := [100, 100, 100], itemsWidth := 300,
               lastIndex := JSNum.num 1 } := by decide
  have hN : 2 = N := (hval 600 _ he).1
  subst hN
  exact ⟨_, he, rfl, rfl, hok, hleast⟩

/-- C4 (cycle completion, P3): on a non-empty item list of positive widths with
`clonesFinish` on, `getCalcData` returns for every sufficient budget and the
returned `clonesCount` is a multiple of the item count. -/
theorem cycle_completion (o : FillerOptions) (cw : Int) (item : List Element)
    (hne : item ≠ []) (hpos : ∀ el ∈ item, 0 < measure el) (hfin : o.clonesFinish = true) :
    (∀ fuel, fuelBound o cw (item.map measure) ≤ fuel →
      (getCalcData fuel o cw item).isSome = true) ∧
    ∀ fuel d, getCalcData fuel o cw item = some d → d.clonesCount % item.length = 0 := by
  obtain ⟨N, hok, _, hret, huniq⟩ := getCalcData_result o cw item hne hpos
  refine ⟨fun fuel hf => by rw [hret fuel hf]; rfl, fun fuel d hd => ?_⟩
  rw [huniq fuel d hd]
  simpa using hok.2.2 hfin

/-- Witness of C4, scenario C: three items of width 100 and a target of 400,
first met at 4 clones, give `clonesCount = 6`. -/
theorem cycle_completion_witness :
    cycSum (threeItems.map measure) 3 < fillTarget finishOptions 400 (threeItems.map measure) ∧
    fillTarget finishOptions 400 (threeItems.map measure) ≤ cycSum (threeItems.map measure) 4 ∧
    ∃ d, getCalcData 1200 finishOptions 400 threeItems = some d ∧
      d.clonesCount = 6 ∧ d.clonesCount % threeItems.length = 0 := by
  have h := cycle_completion finishOptions 400 threeItems (by decide) (by decide) rfl
  have he : getCalcData 1200 finishOptions 400 threeItems
      = some { clonesCount := 6, clonesWidth := JSNum.num 600, containerWidth := 400,
               fullWidth := JSNum.num 900, itemWidth := [100, 100, 100], itemsWidth := 300,
               lastIndex := JSNum.num 2 } := by decide
  exact ⟨by decide, by decide, _, he, rfl, h.2 1200 _ he⟩

/-! ## Theorems: clones -/

theorem makeClone_ok {item : List Element} (hne : item ≠ []) (offset i : Nat) :
    makeClone item offset i
      = Except.ok (cloneOf (item.getD ((offset + i) % item.length) default)) := by
  have hlen : 0 < item.length := List.length_pos.mpr hne
  have hlt : (offset + i) % item.length < item.length := Nat.mod_lt _ hlen
  simp only [makeClone, jsMod, if_neg (Nat.pos_iff_ne_zero.mp hlen), Int.toNat_ofNat,
    List.get?_eq_getElem?, List.getElem?_eq_getElem hlt, List.getD_eq_getElem _ _ hlt, cloneOf]

theorem makeClone_nil (offset i : Nat) :
    makeClone [] offset i = Except.error Failure.typeError := by
  simp [makeClone, jsMod]

theorem cloneLoop_ok {item : List Element} (hne : item ≠ []) (offset : Nat) :
    ∀ (n i : Nat) (acc : List Element),
      cloneLoop item offset n i acc = Except.ok (acc ++ cyclicClones item (offset + i) n) := by
  intro n
  induction n with
  | zero => intro i acc; simp [cloneLoop, cyclicClones]
  | succ n ih =>
    intro i acc
    simp only [cloneLoop, makeClone_ok hne, ih]
    simp only [cyclicClones, List.range_succ_eq_map, List.map_cons, List.map_map,
      List.append_assoc, List.singleton_append, Nat.add_zero]
    congr 3
    apply List.map_congr_left
    intro j _
    simp only [Function.comp, Nat.succ_eq_add_one]
    congr 3
    omega

theorem addClones_ok (s : Filler) (hne : s.item ≠ []) (count offset : Nat) :
    s.addClones count offset
      = Except.ok { s with wrapper := s.wrapper ++ cyclicClones s.item offset count } := by
  simp [Filler.addClones, cloneLoop_ok hne]

theorem cyclicClones_length (item : List Element) (offset count : Nat) :
    (cyclicClones item offset count).length = count := by
  simp [cyclicClones]

theorem cyclicClones_marked (item : List Element) (offset count : Nat) :
    ∀ e ∈ cyclicClones item offset count, e.cloneClass = true := by
  intro e he
  simp only [cyclicClones, List.mem_map] at he
  obtain ⟨j, _, rfl⟩ := he
  rfl

theorem filter_cyclicClones (item : List Element) (offset count : Nat) :
    (cyclicClones item offset count).filter (fun e => e.cloneClass)
      = cyclicClones item offset count :=
  List.filter_eq_self.mpr (cyclicClones_marked item offset count)

theorem filter_dropMarked (n : Nat) (l : List Element) :
    (dropMarked n l).filter (fun e => e.cloneClass)
      = (l.filter fun e => e.cloneClass).drop n := by
  induction l generalizing n with
  | nil => cases n <;> simp [dropMarked]
  | cons e l ih =>
    cases n with
    | zero => simp [dropMarked]
    | succ n =>
      cases he : e.cloneClass with
      | true => simp [dropMarked, he, ih]
      | false => simp [dropMarked, he, ih]

theorem filter_not_dropMarked (n : Nat) (l : List Element) :
    (dropMarked n l).filter (fun e => !e.cloneClass) = l.filter fun e => !e.cloneClass := by
  induction l generalizing n with
  | nil => cases n <;> simp [dropMarked]
  | cons e l ih =>
    cases n with
    | zero => simp [dropMarked]
    | succ n =>
      cases he : e.cloneClass with
      | true => simp [dropMarked, he, ih]
      | false => simp [dropMarked, he, ih]

theorem removeClones_clones (s : Filler) (count : Nat) :
    (s.removeClones count).clones
      = s.clones.take (s.clones.length - (jsSliceLast count s.clones).length) := by
  simp only [Filler.removeClones, Filler.clones, List.filter_reverse, filter_dropMarked,
    List.drop_reverse, List.reverse_reverse, List.length_reverse]

theorem removeClones_base (s : Filler) (count : Nat) :
    (s.removeClones count).wrapper.filter (fun e => !e.cloneClass)
      = s.wrapper.filter fun e => !e.cloneClass := by
  simp only [Filler.removeClones, List.filter_reverse, filter_not_dropMarked,
    List.reverse_reverse]

theorem jsSliceLast_length {α : Type} (count : Nat) (arr : List α) (h0 : 0 < count)
    (hle : count ≤ arr.length) : (jsSliceLast count arr).length = count := by
  simp only [jsSliceLast, if_neg (Nat.pos_iff_ne_zero.mp h0), List.length_drop]
  omega

theorem setClonesCount_same (s : Filler) (count : Nat) (h : s.clonesCount = count) :
    s.setClonesCount count = Except.ok s := by
  simp [Filler.setClonesCount, h]

theorem setClonesCount_grow (s : Filler) (hne : s.item ≠ []) (count : Nat)
    (h : s.clonesCount < count) :
    s.setClonesCount count
      = Except.ok { s with
          wrapper := s.wrapper ++ cyclicClones s.item s.clonesCount (count - s.clonesCount)
          clonesCount := count } := by
  have h1 : ¬ s.clonesCount = count := by omega
  have h2 : ¬ s.clonesCount > count := by omega
  simp only [Filler.setClonesCount, if_neg h1, if_pos h, addClones_ok s hne, if_neg h2]

theorem setClonesCount_shrink (s : Filler) (count : Nat) (h : count < s.clonesCount) :
    s.setClonesCount count
      = Except.ok { s.removeClones (s.clonesCount - count) with clonesCount := count } := by
  have h1 : ¬ s.clonesCount = count := by omega
  have h2 : ¬ s.clonesCount < count := by omega
  have h3 : s.clonesCount > count := h
  simp only [Filler.setClonesCount, if_neg h1, if_neg h2, if_pos h3]

theorem setClonesCount_frame (s s1 : Filler) (count : Nat)
    (h : s.setClonesCount count = Except.ok s1) :
    s1.clonesCount = count ∧ s1.calcData = s.calcData ∧ s1.item = s.item ∧
      s1.options = s.options ∧ s1.log = s.log ∧ s1.resizeObserver = s.resizeObserver := by
  unfold Filler.setClonesCount at h
  by_cases h1 : s.clonesCount = count
  · rw [if_pos h1] at h
    cases h
    exact ⟨h1, rfl, rfl, rfl, rfl, rfl⟩
  · rw [if_neg h1] at h
    by_cases h2 : s.clonesCount < count
    · rw [if_pos h2] at h
      unfold Filler.addClones at h
      cases hc : cloneLoop s.item s.clonesCount (count - s.clonesCount) 0 [] with
      | error e => rw [hc] at h; cases h
      | ok clones =>
        rw [hc] at h
        have h3 : ¬ s.clonesCount > count := by omega
        simp only [if_neg h3] at h
        cases h
        exact ⟨rfl, rfl, rfl, rfl, rfl, rfl⟩
    · rw [if_neg h2] at h
      have h3 : s.clonesCount > count := by omega
      simp only [if_pos h3] at h
      cases h
      exact ⟨rfl, rfl, rfl, rfl, rfl, rfl⟩

theorem setClonesCount_ok (s : Filler) (hne : s.item ≠ []) (count : Nat) :
    ∃ s1, s.setClonesCount count = Except.ok s1 := by
  rcases Nat.lt_trichotomy s.clonesCount count with h | h | h
  · exact ⟨_, setClonesCount_grow s hne count h⟩
  · exact ⟨_, setClonesCount_same s count h⟩
  · exact ⟨_, setClonesCount_shrink s count h⟩

theorem update_inv (s s1 : Filler) (fuel : Nat) (cw : Int)
    (h : s.update fuel cw = Except.ok s1) :
    ∃ d s0, getCalcData fuel s.options cw s.item = some d ∧
      Filler.setClonesCount d.clonesCount { s with calcData := some d } = Except.ok s0 ∧
      s1 = { s0 with log := s0.log ++ [FillerEffect.update d] } := by
  unfold Filler.update at h
  cases hd : getCalcData fuel s.options cw s.item with
  | none => rw [hd] at h; cases h
  | some d =>
    rw [hd] at h
    cases hs : Filler.setClonesCount d.clonesCount { s with calcData := some d } with
    | error e => simp only [hs] at h; cases h
    | ok s0 =>
      simp only [hs] at h
      cases h
      exact ⟨d, s0, rfl, hs, rfl⟩

theorem update_ok (s : Filler) (hne : s.item ≠ []) (fuel : Nat) (cw : Int) (d : CalcData)
    (hd : getCalcData fuel s.options cw s.item = some d) :
    ∃ s1, s.update fuel cw = Except.ok s1 := by
  obtain ⟨s0, hs0⟩ := setClonesCount_ok { s with calcData := some d } hne d.clonesCount
  refine ⟨{ s0 with log := s0.log ++ [FillerEffect.update d] }, ?_⟩
  simp only [Filler.update, hd, hs0]

/-! ## Claims on `update` and `setClonesCount` -/

/-- C3 (floor, P2): on a non-empty item list of positive widths, `update`
returns for every sufficient budget, and after it both the computed
`calcData.clonesCount` and the stored `this.clonesCount` are `>= clonesMin`. -/
theorem floor_after_update (s : Filler) (cw : Int)
    (hne : s.item ≠ []) (hpos : ∀ el ∈ s.item, 0 < measure el) :
    (∀ fuel, fuelBound s.options cw (s.item.map measure) ≤ fuel →
      ∃ s1, s.update fuel cw = Except.ok s1) ∧
    ∀ fuel s1, s.update fuel cw = Except.ok s1 →
      ∃ d, s1.calcData = some d ∧ s.options.clonesMin ≤ (d.clonesCount : Int) ∧
        s.options.clonesMin ≤ (s1.clonesCount : Int) := by
  obtain ⟨N, hok, _, hret, huniq⟩ := getCalcData_result s.options cw s.item hne hpos
  refine ⟨fun fuel hf => update_ok s hne fuel cw _ (hret fuel hf), fun fuel s1 h => ?_⟩
  obtain ⟨d, s0, hd, hs0, rfl⟩ := update_inv s s1 fuel cw h
  obtain ⟨hc, hcd, _⟩ := setClonesCount_frame _ _ _ hs0
  have hdN := huniq fuel d hd
  refine ⟨d, hcd, ?_, ?_⟩
  · rw [hdN]; exact hok.2.1
  · show s.options.clonesMin ≤ (s0.clonesCount : Int)
    rw [hc, hdN]; exact hok.2.1

/-- Witness of C3, scenario B: container 500, widths 100, 100, 100, overflow
off, `clonesMin` 5 gives `clonesCount = 5` exactly, computed and stored. -/
theorem floor_after_update_witness :
    ∃ s1 d, (Filler.fresh minFiveOptions threeItems).update 1500 500 = Except.ok s1 ∧
      s1.calcData = some d ∧ d.clonesCount = 5 ∧ s1.clonesCount = 5 ∧
      minFiveOptions.clonesMin ≤ (d.clonesCount : Int) ∧
      minFiveOptions.clonesMin ≤ (s1.clonesCount : Int) := by
  have h := floor_after_update (Filler.fresh minFiveOptions threeItems) 500
    (by decide) (by decide)
  obtain ⟨s1, hs1⟩ := h.1 1500 (by decide)
  obtain ⟨d, hd, h1, h2⟩ := h.2 1500 s1 hs1
  have he : ((Filler.fresh minFiveOptions threeItems).update 1500 500).map
      (fun t => (t.calcData.map fun c => c.clonesCount, t.clonesCount))
      = Except.ok (some 5, 5) := rfl
  rw [hs1] at he
  simp only [Except.map, hd, Option.map_some', Except.ok.injEq, Prod.mk.injEq,
    Option.some.injEq] at he
  exact ⟨s1, d, hs1, hd, he.1, he.2, h1, h2⟩

/-- C5 (degenerate input), the code at the failing input: with no items and a
container 500 wide (default options), the loop of `getCalcData` stops after one
round with `clonesCount = 1` and `clonesWidth = NaN`, and `update` never
returns normally: `addClones` throws a `TypeError` reading `cloneNode` of
`undefined` (or the budget is exhausted when it is 0). -/
theorem update_empty_items_throws :
    getCalcData 1 Filler.defaultOptions 500 []
      = some { clonesCount := 1, clonesWidth := JSNum.nan, containerWidth := 500,
               fullWidth := JSNum.nan, itemWidth := [], itemsWidth := 0,
               lastIndex := JSNum.nan } ∧
    ∀ fuel, (Filler.fresh Filler.defaultOptions []).update fuel 500
      = Except.error (if fuel = 0 then Failure.outOfFuel else Failure.typeError) := by
  have h1 : getCalcData 1 Filler.defaultOptions 500 []
      = some { clonesCount := 1, clonesWidth := JSNum.nan, containerWidth := 500,
               fullWidth := JSNum.nan, itemWidth := [], itemsWidth := 0,
               lastIndex := JSNum.nan } := by decide
  refine ⟨h1, fun fuel => ?_⟩
  cases fuel with
  | zero => rfl
  | succ n =>
    have h2 := getCalcData_mono _ _ _ 1 (n + 1) _ h1 (by omega)
    have h3 : (Filler.fresh Filler.defaultOptions []).options = Filler.defaultOptions := rfl
    have h4 : (Filler.fresh Filler.defaultOptions []).item = [] := rfl
    simp only [Filler.update, h3, h4, h2]
    rfl

/-- C6 (idempotence, P4): when `update` returns on a filler, a second `update`
with the same container width (and the same item widths, which the state
carries) returns as well, with the same `calcData` object, the same track and
hence the same clone list: the state differs only by the second `update`
event in the log. -/
theorem update_idempotent (s s1 : Filler) (fuel : Nat) (cw : Int)
    (h : s.update fuel cw = Except.ok s1) :
    ∀ fuel2, fuel ≤ fuel2 →
      ∃ d s2, s1.calcData = some d ∧ s1.update fuel2 cw = Except.ok s2 ∧
        s2.calcData = s1.calcData ∧ s2.wrapper = s1.wrapper ∧ s2.clones = s1.clones ∧
        s2.clonesCount = s1.clonesCount ∧
        s2 = { s1 with log := s1.log ++ [FillerEffect.update d] } := by
  intro fuel2 hle
  obtain ⟨d, s0, hd, hs0, rfl⟩ := update_inv s s1 fuel cw h
  obtain ⟨hc, hcd, hit, hop, _, _⟩ := setClonesCount_frame _ _ _ hs0
  have hd2 := getCalcData_mono _ _ _ _ fuel2 _ hd hle
  obtain ⟨o0, it0, w0, c0, cd0, ro0, lg0⟩ := s0
  simp only at hc hcd hit hop
  subst hc hcd hit hop
  refine ⟨d,
    { options := s.options, item := s.item, wrapper := w0, clonesCount := d.clonesCount,
      calcData := some d, resizeObserver := ro0,
      log := lg0 ++ [FillerEffect.update d] ++ [FillerEffect.update d] },
    rfl, ?_, rfl, rfl, rfl, rfl, rfl⟩
  simp [Filler.update, hd2, Filler.setClonesCount]

/-- Witness of C6 on scenario A: the first `update` of a fresh filler returns,
and the second one repeats its `calcData` and leaves the track alone. -/
theorem update_idempotent_witness :
    ∃ s1 s2, (Filler.fresh Filler.defaultOptions threeItems).update 10 500 = Except.ok s1 ∧
      s1.update 10 500 = Except.ok s2 ∧ s2.calcData = s1.calcData ∧
      s2.wrapper = s1.wrapper := by
  obtain ⟨s1, hs1⟩ : ∃ s1, (Filler.fresh Filler.defaultOptions threeItems).update 10 500
      = Except.ok s1 := ⟨_, rfl⟩
  obtain ⟨_, s2, _, h2, h3, h4, _⟩ := update_idempotent _ s1 10 500 hs1 10 (le_refl _)
  exact ⟨s1, s2, hs1, h2, h3, h4⟩

theorem dropMarked_sublist (n : Nat) (l : List Element) : (dropMarked n l).Sublist l := by
  induction l generalizing n with
  | nil => cases n <;> simp [dropMarked]
  | cons e l ih =>
    cases n with
    | zero => simp [dropMarked]
    | succ n =>
      simp only [dropMarked]
      split
      · exact List.Sublist.cons _ (ih n)
      · exact List.Sublist.cons₂ _ (ih (n + 1))

theorem removeClones_sublist (s : Filler) (count : Nat) :
    (s.removeClones count).wrapper.Sublist s.wrapper := by
  have h := (dropMarked_sublist (jsSliceLast count s.clones).length s.wrapper.reverse).reverse
  simpa [Filler.removeClones] using h

/-- C7 (reconcile correctness, P5): on a filler with a non-empty item list whose
clone list has length `c = this.clonesCount`,
* `setClonesCount(c + k)` with `k > 0` appends exactly `k` elements to the end
  of the track, the `j`-th one a copy of `item[(c + j) mod itemCount]` with the
  clone class, and the clone list becomes the old one followed by them;
* `setClonesCount(c - k)` with `0 < k <= c` leaves as clone list the first
  `c - k` old clones, keeps the other elements and the order of the track;
* `setClonesCount(c)` changes nothing;
and `this.clonesCount` equals the argument afterwards. -/
theorem reconcile_correct (s : Filler) (hne : s.item ≠ [])
    (hc : s.clones.length = s.clonesCount) :
    (∀ k, 0 < k → ∃ s1 appended,
      s.setClonesCount (s.clonesCount + k) = Except.ok s1 ∧
      s1.wrapper = s.wrapper ++ appended ∧ s1.clones = s.clones ++ appended ∧
      appended.length = k ∧
      (∀ j, j < k → ∃ el, s.item.get? ((s.clonesCount + j) % s.item.length) = some el ∧
        appended.get? j = some { el with cloneClass := true }) ∧
      s1.clonesCount = s.clonesCount + k ∧ s1.item = s.item) ∧
    (∀ k, 0 < k → k ≤ s.clonesCount → ∃ s1,
      s.setClonesCount (s.clonesCount - k) = Except.ok s1 ∧
      s1.clones = s.clones.take (s.clonesCount - k) ∧
      s1.clones.length = s.clonesCount - k ∧
      (s1.wrapper.filter fun e => !e.cloneClass) = (s.wrapper.filter fun e => !e.cloneClass) ∧
      s1.wrapper.Sublist s.wrapper ∧
      s1.clonesCount = s.clonesCount - k ∧ s1.item = s.item) ∧
    s.setClonesCount s.clonesCount = Except.ok s := by
  have hlen : 0 < s.item.length := List.length_pos.mpr hne
  refine ⟨fun k hk => ?_, fun k hk hle => ?_, setClonesCount_same s _ rfl⟩
  · refine ⟨_, cyclicClones s.item s.clonesCount k,
      setClonesCount_grow s hne _ (by omega), ?_, ?_, cyclicClones_length _ _ _, ?_, rfl, rfl⟩
    · simp
    · simp [Filler.clones, List.filter_append, filter_cyclicClones]
    · intro j hj
      have hlt : (s.clonesCount + j) % s.item.length < s.item.length := Nat.mod_lt _ hlen
      refine ⟨s.item[(s.clonesCount + j) % s.item.length], ?_, ?_⟩
      · rw [List.get?_eq_getElem?, List.getElem?_eq_getElem hlt]
      · rw [List.get?_eq_getElem?]
        simp [cyclicClones, hj, List.getElem?_eq_getElem hlt, cloneOf]
  · have hr : (s.removeClones (s.clonesCount - (s.clonesCount - k))).clones
        = s.clones.take (s.clonesCount - k) := by
      rw [removeClones_clones, jsSliceLast_length _ _ (by omega) (by omega), hc]
      congr 1
      omega
    refine ⟨_, setClonesCount_shrink s _ (by omega), hr, ?_, ?_, ?_, rfl, rfl⟩
    · have := congrArg List.length hr
      simp only [List.length_take, hc] at this
      simpa using this
    · exact removeClones_base s _
    · exact removeClones_sublist s _

/-- Witness of C7: on a fresh filler over three items (no clone, count 0),
`setClonesCount(2)` appends copies of items 0 and 1. -/
theorem reconcile_correct_witness :
    ∃ s1, (Filler.fresh Filler.defaultOptions threeItems).setClonesCount (0 + 2) = Except.ok s1 ∧
      s1.wrapper = threeItems ++ [cloneOf (plainItem 0 100), cloneOf (plainItem 1 100)] ∧
      s1.clonesCount = 2 := by
  have h := reconcile_correct (Filler.fresh Filler.defaultOptions threeItems)
    (by decide) (by decide)
  obtain ⟨s1, appended, h1, _, _, _, _, h6, _⟩ := h.1 2 (by decide)
  have he : (Filler.fresh Filler.defaultOptions threeItems).setClonesCount (0 + 2)
      = Except.ok { Filler.fresh Filler.defaultOptions threeItems with
          wrapper := threeItems ++ [cloneOf (plainItem 0 100), cloneOf (plainItem 1 100)]
          clonesCount := 2 } := rfl
  have hs : (Filler.fresh Filler.defaultOptions threeItems).clonesCount + 2 = 0 + 2 := rfl
  rw [hs, he] at h1
  cases h1
  exact ⟨_, he, rfl, rfl⟩

/-! ## Theorems: tiling -/

theorem cyclicClones_append (item : List Element) (offset c k : Nat) :
    cyclicClones item offset c ++ cyclicClones item (offset + c) k
      = cyclicClones item offset (c + k) := by
  simp only [cyclicClones, List.range_add, List.map_append, List.map_map]
  congr 1
  apply List.map_congr_left
  intro j _
  simp only [Function.comp, Nat.add_assoc]

theorem cyclicClones_take (item : List Element) (offset c n : Nat) (h : n ≤ c) :
    (cyclicClones item offset c).take n = cyclicClones item offset n := by
  simp only [cyclicClones, ← List.map_take, List.take_range, Nat.min_eq_left h]

theorem dropMarked_append_marked (a b : List Element) (ha : ∀ e ∈ a, e.cloneClass = true) :
    ∀ n, n ≤ a.length → dropMarked n (a ++ b) = a.drop n ++ b := by
  induction a with
  | nil =>
    intro n hn
    have : n = 0 := by simpa using hn
    subst this
    simp [dropMarked]
  | cons e a ih =>
    intro n hn
    cases n with
    | zero => simp [dropMarked]
    | succ n =>
      have he : e.cloneClass = true := ha e (List.mem_cons_self _ _)
      have hn2 : n ≤ a.length := by simpa using hn
      simp only [List.cons_append, dropMarked, he, if_true, List.drop_succ_cons]
      exact ih (fun x hx => ha x (List.mem_cons_of_mem _ hx)) n hn2

theorem tiled_clones_length {items : List Element} {s : Filler} (h : Tiled items s) :
    s.clonesCount ≤ s.clones.length := by
  simp [Filler.clones, h.2, List.filter_append, filter_cyclicClones, cyclicClones_length]

theorem removeClones_tiled {items : List Element} {s : Filler} (h : Tiled items s)
    (count : Nat) (hlt : count < s.clonesCount) :
    (s.removeClones (s.clonesCount - count)).wrapper = items ++ cyclicClones items 0 count := by
  have hlen := tiled_clones_length h
  have hr : (jsSliceLast (s.clonesCount - count) s.clones).length = s.clonesCount - count :=
    jsSliceLast_length _ _ (by omega) (by omega)
  have hm : ∀ e ∈ (cyclicClones items 0 s.clonesCount).reverse, e.cloneClass = true := by
    intro e he
    exact cyclicClones_marked _ _ _ e (List.mem_reverse.mp he)
  simp only [Filler.removeClones, hr, h.2, List.reverse_append]
  rw [dropMarked_append_marked _ _ hm _ (by simp [cyclicClones_length])]
  simp only [List.reverse_append, List.reverse_reverse, List.drop_reverse, cyclicClones_length]
  rw [cyclicClones_take _ _ _ _ (by omega)]
  congr 2
  omega

theorem setClonesCount_tiled {items : List Element} (hne : items ≠ []) {s : Filler}
    (h : Tiled items s) (count : Nat) :
    ∃ s1, s.setClonesCount count = Except.ok s1 ∧ Tiled items s1 ∧ s1.clonesCount = count ∧
      s1.options = s.options ∧ s1.calcData = s.calcData := by
  have hit : s.item ≠ [] := by rw [h.1]; exact hne
  rcases Nat.lt_trichotomy s.clonesCount count with hlt | heq | hgt
  · refine ⟨_, setClonesCount_grow s hit count hlt, ⟨h.1, ?_⟩, rfl, rfl, rfl⟩
    show s.wrapper ++ cyclicClones s.item s.clonesCount (count - s.clonesCount)
      = items ++ cyclicClones items 0 count
    have := cyclicClones_append items 0 s.clonesCount (count - s.clonesCount)
    rw [Nat.zero_add] at this
    rw [h.2, h.1, List.append_assoc, this]
    congr 2
    omega
  · exact ⟨s, setClonesCount_same s count heq, h, heq, rfl, rfl⟩
  · refine ⟨_, setClonesCount_shrink s count hgt, ⟨h.1, ?_⟩, rfl, rfl, rfl⟩
    exact removeClones_tiled h count hgt

theorem update_tiled {items : List Element} (hne : items ≠ [])
    (hpos : ∀ el ∈ items, 0 < measure el) {s : Filler} (h : Tiled items s)
    (fuel : Nat) (cw : Int) (hfuel : fuelBound s.options cw (items.map measure) ≤ fuel) :
    ∃ s1 N, s.update fuel cw = Except.ok s1 ∧ Tiled items s1 ∧ s1.options = s.options ∧
      s1.calcData = some (planAt cw (items.map measure) N) ∧ s1.clonesCount = N ∧
      PlanOk s.options cw (items.map measure) N := by
  obtain ⟨N, hok, _, hret, _⟩ := getCalcData_result s.options cw items hne hpos
  have hd := hret fuel hfuel
  have ht : Tiled items { s with calcData := some (planAt cw (items.map measure) N) } := h
  obtain ⟨s0, hs0, ht0, hc0, ho0, hcd0⟩ := setClonesCount_tiled hne ht N
  refine ⟨{ s0 with log := s0.log ++ [FillerEffect.update (planAt cw (items.map measure) N)] },
    N, ?_, ht0, ho0, hcd0, hc0, hok⟩
  have hc : (planAt cw (items.map measure) N).clonesCount = N := rfl
  have hi : s.item = items := h.1
  subst hi
  simp only [Filler.update, hd, hc, hs0]

theorem updates_tiled {items : List Element} (hne : items ≠ [])
    (hpos : ∀ el ∈ items, 0 < measure el) :
    ∀ (runs : List (Nat × Int)) (s : Filler), Tiled items s →
      (∀ p ∈ runs, fuelBound s.options p.2 (items.map measure) ≤ p.1) →
      ∃ s1, Filler.updates runs s = Except.ok s1 ∧ Tiled items s1 ∧ s1.options = s.options := by
  intro runs
  induction runs with
  | nil => intro s h _; exact ⟨s, rfl, h, rfl⟩
  | cons p rest ih =>
    intro s h hf
    obtain ⟨fuel, cw⟩ := p
    obtain ⟨s1, N, hu, ht, ho, _⟩ :=
      update_tiled hne hpos h fuel cw (hf (fuel, cw) (List.mem_cons_self _ _))
    obtain ⟨s2, hu2, ht2, ho2⟩ := ih s1 ht (fun q hq => by
      rw [ho]; exact hf q (List.mem_cons_of_mem _ hq))
    refine ⟨s2, ?_, ht2, ho2.trans ho⟩
    simp only [Filler.updates, hu, hu2]

theorem updates_append (runs : List (Nat × Int)) (fuel : Nat) (cw : Int) (s s1 : Filler)
    (h : Filler.updates runs s = Except.ok s1) :
    Filler.updates (runs ++ [(fuel, cw)]) s = s1.update fuel cw := by
  induction runs generalizing s with
  | nil =>
    cases h
    simp only [List.nil_append, Filler.updates]
    cases Filler.update fuel cw s1 <;> rfl
  | cons p rest ih =>
    obtain ⟨f, c⟩ := p
    simp only [Filler.updates, List.cons_append] at h ⊢
    cases hu : s.update f c with
    | error e => rw [hu] at h; cases h
    | ok s2 =>
      rw [hu] at h
      exact ih s2 h

theorem measure_eq_layoutWidth (el : Element) : measure el = layoutWidth el := by
  simp only [measure, layoutWidth]
  omega

theorem trackWidth_eq (l : List Element) : trackWidth l = (l.map measure).sum := by
  simp only [trackWidth]
  congr 1
  apply List.map_congr_left
  intro e _
  exact (measure_eq_layoutWidth e).symm

theorem trackWidth_append (a b : List Element) :
    trackWidth (a ++ b) = trackWidth a + trackWidth b := by
  simp [trackWidth]

theorem trackWidth_cyclicClones {items : List Element} (hne : items ≠ []) (n : Nat) :
    trackWidth (cyclicClones items 0 n) = cycSum (items.map measure) n := by
  have hlen : 0 < items.length := List.length_pos.mpr hne
  rw [trackWidth_eq]
  simp only [cyclicClones, cycSum, List.map_map, List.length_map, Nat.zero_add]
  congr 1
  apply List.map_congr_left
  intro j _
  have hlt : j % items.length < items.length := Nat.mod_lt _ hlen
  have hlt2 : j % items.length < (items.map measure).length := by simpa using hlt
  simp only [Function.comp, List.getD_eq_getElem _ _ hlt, List.getD_eq_getElem _ _ hlt2,
    List.getElem_map]
  rfl

theorem cyclicClones_self (items : List Element) :
    cyclicClones items 0 items.length = items.map cloneOf := by
  apply List.ext_getElem
  · simp [cyclicClones_length]
  · intro n h1 h2
    have hn : n < items.length := by simpa using h2
    simp [cyclicClones, Nat.mod_eq_of_lt hn, List.getElem?_eq_getElem hn]

theorem cyclicClones_period (items : List Element) (n : Nat) :
    cyclicClones items items.length n = cyclicClones items 0 n := by
  simp only [cyclicClones]
  apply List.map_congr_left
  intro j _
  rw [Nat.add_mod_left, Nat.zero_add]

theorem map_cloneOf_cyclicClones (items : List Element) (offset n : Nat) :
    (cyclicClones items offset n).map cloneOf = cyclicClones items offset n := by
  simp only [cyclicClones, List.map_map]
  apply List.map_congr_left
  intro j _
  rfl

theorem coverFrom_some (l : List Element) :
    ∀ x, 0 ≤ x → x < trackWidth l → ∃ r, coverFrom l x = some r := by
  induction l with
  | nil => intro x h0 h1; simp [trackWidth] at h1; omega
  | cons e l ih =>
    intro x h0 h1
    by_cases hx : x < layoutWidth e
    · exact ⟨(e, x), by simp [coverFrom, hx]⟩
    · obtain ⟨r, hr⟩ := ih (x - layoutWidth e) (by omega) (by
        simp only [trackWidth, List.map_cons, List.sum_cons] at h1 ⊢
        omega)
      exact ⟨r, by simp [coverFrom, hx, hr]⟩

theorem coverFrom_append_left (a b : List Element) :
    ∀ x r, coverFrom a x = some r → coverFrom (a ++ b) x = some r := by
  induction a with
  | nil => intro x r h; simp [coverFrom] at h
  | cons e a ih =>
    intro x r h
    by_cases hx : x < layoutWidth e
    · simpa [coverFrom, hx] using h
    · simp only [coverFrom, hx, if_false, List.cons_append] at h ⊢
      exact ih _ _ h

theorem coverFrom_skip (a b : List Element) (ha : ∀ e ∈ a, 0 ≤ layoutWidth e) :
    ∀ x, 0 ≤ x → coverFrom (a ++ b) (trackWidth a + x) = coverFrom b x := by
  induction a with
  | nil => intro x _; simp [trackWidth]
  | cons e a ih =>
    intro x h0
    have hw : ∀ l : List Element, (∀ e ∈ l, 0 ≤ layoutWidth e) → 0 ≤ trackWidth l := by
      intro l hl
      induction l with
      | nil => simp [trackWidth]
      | cons y l ihl =>
        have h1 := hl y (List.mem_cons_self _ _)
        have h2 := ihl (fun z hz => hl z (List.mem_cons_of_mem _ hz))
        simp only [trackWidth, List.map_cons, List.sum_cons] at h2 ⊢
        omega
    have hwa := hw a (fun z hz => ha z (List.mem_cons_of_mem _ hz))
    have hnot : ¬ trackWidth (e :: a) + x < layoutWidth e := by
      simp only [trackWidth, List.map_cons, List.sum_cons] at hwa ⊢
      omega
    have heq : trackWidth (e :: a) + x - layoutWidth e = trackWidth a + x := by
      simp only [trackWidth, List.map_cons, List.sum_cons]
      omega
    simp only [List.cons_append, coverFrom, hnot, if_false, heq]
    exact ih (fun z hz => ha z (List.mem_cons_of_mem _ hz)) x h0

theorem coverFrom_map_cloneOf (l : List Element) :
    ∀ x, coverFrom (l.map cloneOf) x = (coverFrom l x).map fun r => (cloneOf r.1, r.2) := by
  induction l with
  | nil => intro x; rfl
  | cons e l ih =>
    intro x
    have hm : layoutWidth (cloneOf e) = layoutWidth e := rfl
    by_cases hx : x < layoutWidth e
    · simp [coverFrom, hm, hx]
    · simp [coverFrom, hm, hx, ih]

theorem cover_periodic {items : List Element} (hne : items ≠ [])
    (hpos : ∀ el ∈ items, 0 < measure el) (n : Nat) (x : Int) (h0 : 0 ≤ x)
    (hx : x < cycSum (items.map measure) n) :
    ∃ e off, cover (items ++ cyclicClones items 0 n) x = some (e, off) ∧
      cover (items ++ cyclicClones items 0 n) (trackWidth items + x) = some (cloneOf e, off) := by
  have hnn : ∀ e ∈ items, 0 ≤ layoutWidth e := fun e he => by
    rw [← measure_eq_layoutWidth]; exact le_of_lt (hpos e he)
  have hW : 0 ≤ trackWidth items := by
    have := le_cycSum (by simpa using hne) (measure_map_pos hpos) items.length
    have h2 := trackWidth_cyclicClones hne items.length
    rw [cyclicClones_self] at h2
    have h3 : trackWidth (items.map cloneOf) = trackWidth items := by
      simp only [trackWidth, List.map_map]
      rfl
    omega
  obtain ⟨r, hr⟩ := coverFrom_some (cyclicClones items 0 n) x h0
    (by rw [trackWidth_cyclicClones hne]; exact hx)
  have hshift : coverFrom (items ++ cyclicClones items 0 n) (trackWidth items + x) = some r := by
    rw [coverFrom_skip _ _ hnn x h0, hr]
  have hmap : (items ++ cyclicClones items 0 n).map cloneOf
      = cyclicClones items 0 n ++ cyclicClones items n items.length := by
    have h1 := cyclicClones_append items 0 items.length n
    have h2 := cyclicClones_append items 0 n items.length
    rw [Nat.zero_add] at h1 h2
    rw [List.map_append, map_cloneOf_cyclicClones, ← cyclicClones_self, h2, Nat.add_comm n, ← h1,
      cyclicClones_period]
  have hcl := coverFrom_map_cloneOf (items ++ cyclicClones items 0 n) x
  rw [hmap, coverFrom_append_left _ _ _ _ hr] at hcl
  cases hc : coverFrom (items ++ cyclicClones items 0 n) x with
  | none => rw [hc] at hcl; cases hcl
  | some r0 =>
    rw [hc] at hcl
    simp only [Option.map_some', Option.some.injEq] at hcl
    refine ⟨r0.1, r0.2, ?_, ?_⟩
    · simp only [cover, if_neg (not_lt.mpr h0), hc]
    · have : ¬ trackWidth items + x < 0 := by omega
      simp only [cover, if_neg this, hshift, hcl]

/-- C8 (seamless tiling), counterexample: the track holds item 0, a spacer that
the item selector does not match, and item 1.  `refresh(false)` gives a
refreshed filler (no clone, count 0) with the two items of width 100 and
overflow on; `update()` at container width 250 appends three clones.  The track
is then not the items followed by the clones, and position `itemsWidth + 10`
lies 70 into item 1 while position 10 lies 10 into item 0. -/
theorem spacer_breaks_tiling :
    ∃ s0 s d, spacerFiller.refresh 0 0 false = Except.ok s0 ∧
      s0.clones = [] ∧ s0.clonesCount = 0 ∧
      s0.item = [plainItem 0 100, plainItem 1 100] ∧
      s0.item ≠ [] ∧ (∀ el ∈ s0.item, 0 < measure el) ∧
      s0.options.clonesOverflow = true ∧
      Filler.updates [(500, 250)] s0 = Except.ok s ∧
      s.calcData = some d ∧ d.itemsWidth = 200 ∧ d.containerWidth = 250 ∧
      s.wrapper = [plainItem 0 100, spacer, plainItem 1 100, cloneOf (plainItem 0 100),
        cloneOf (plainItem 1 100), cloneOf (plainItem 0 100)] ∧
      s.wrapper ≠ s0.item ++ cyclicClones s0.item 0 s.clonesCount ∧
      cover s.wrapper 10 = some (plainItem 0 100, 10) ∧
      cover s.wrapper (d.itemsWidth + 10) = some (plainItem 1 100, 70) := by
  refine ⟨_, _, _, rfl, ?_, rfl, rfl, ?_, ?_, rfl, rfl, rfl, rfl, rfl, rfl, ?_, ?_, ?_⟩ <;> decide

/-- C8 as amended (seamless tiling): start from a refreshed filler (no clone,
count 0) whose track consists of exactly the items, over a non-empty item list
of positive widths with `clonesOverflow` on.  Every run of `update()` calls with arbitrary container
widths returns and leaves the track as the items followed by the clones, clone
`j` a copy of `item[j mod itemCount]`.  After a run ending with container width
`cw` the track is at least `itemsWidth + cw` wide, the timeline starts at
`x = -itemsWidth`, and for every `0 <= x < cw` the element covering track
position `itemsWidth + x` is a copy of the one covering `x`, at the same inner
offset. -/
theorem seamless_tiling (s0 : Filler) (hne : s0.item ≠ [])
    (hpos : ∀ el ∈ s0.item, 0 < measure el) (hov : s0.options.clonesOverflow = true)
    (hw : s0.wrapper = s0.item) (hc : s0.clonesCount = 0) :
    (∀ runs : List (Nat × Int),
      (∀ p ∈ runs, fuelBound s0.options p.2 (s0.item.map measure) ≤ p.1) →
      ∃ s, Filler.updates runs s0 = Except.ok s ∧
        s.wrapper = s0.item ++ cyclicClones s0.item 0 s.clonesCount) ∧
    ∀ (pre : List (Nat × Int)) (fuel : Nat) (cw : Int),
      (∀ p ∈ pre ++ [(fuel, cw)], fuelBound s0.options p.2 (s0.item.map measure) ≤ p.1) →
      ∃ s d, Filler.updates (pre ++ [(fuel, cw)]) s0 = Except.ok s ∧
        s.calcData = some d ∧ d.containerWidth = cw ∧ d.itemsWidth = trackWidth s0.item ∧
        s.clonesCount = d.clonesCount ∧
        s.wrapper = s0.item ++ cyclicClones s0.item 0 d.clonesCount ∧
        d.itemsWidth + d.containerWidth ≤ trackWidth s.wrapper ∧
        Reeller.startX s.options.clonesOverflow s.calcData = JSNum.num (-d.itemsWidth) ∧
        ∀ x, 0 ≤ x → x < d.containerWidth →
          ∃ e off, cover s.wrapper x = some (e, off) ∧
            cover s.wrapper (d.itemsWidth + x) = some (cloneOf e, off) := by
  have ht0 : Tiled s0.item s0 := ⟨rfl, by rw [hw, hc]; simp [cyclicClones]⟩
  refine ⟨fun runs hf => ?_, fun pre fuel cw hf => ?_⟩
  · obtain ⟨s, hs, ht, _⟩ := updates_tiled hne hpos runs s0 ht0 hf
    exact ⟨s, hs, ht.2⟩
  · obtain ⟨s1, hs1, ht1, ho1⟩ := updates_tiled hne hpos pre s0 ht0
      (fun p hp => hf p (List.mem_append_left _ hp))
    have hfl : fuelBound s1.options cw (s0.item.map measure) ≤ fuel := by
      rw [ho1]
      exact hf (fuel, cw) (List.mem_append_right _ (List.mem_singleton.mpr rfl))
    obtain ⟨s, N, hu, ht, ho, hcd, hcn, hok⟩ := update_tiled hne hpos ht1 fuel cw hfl
    have hovs : s.options.clonesOverflow = true := by rw [ho, ho1, hov]
    have hcov : cw ≤ cycSum (s0.item.map measure) N := by
      have := hok.1
      simpa [fillTarget, ho1, hov] using this
    have hiw : (planAt cw (s0.item.map measure) N).itemsWidth = trackWidth s0.item :=
      (trackWidth_eq _).symm
    refine ⟨s, planAt cw (s0.item.map measure) N, ?_, hcd, rfl, hiw, hcn, ?_, ?_, ?_, ?_⟩
    · rw [updates_append pre fuel cw s0 s1 hs1, hu]
    · have := ht.2
      rw [hcn] at this
      exact this
    · have := ht.2
      rw [hcn] at this
      rw [this, trackWidth_append, trackWidth_cyclicClones hne, hiw]
      have hcw : (planAt cw (s0.item.map measure) N).containerWidth = cw := rfl
      rw [hcw]
      omega
    · simp [Reeller.startX, hovs, hcd, planAt, JSNum.neg]
    · intro x h0 hx
      have := ht.2
      rw [hcn] at this
      rw [this, hiw]
      exact cover_periodic hne hpos N x h0 (lt_of_lt_of_le hx hcov)

/-- Witness of C8: three items of width 100 with overflow on, one `update()` at
container width 250.  Three clones are appended; position 120 lies 20 into
item 1 and position 300 + 120 lies 20 into the copy of item 1. -/
theorem seamless_tiling_witness :
    ∃ s, Filler.updates ([] ++ [(750, 250)]) (Filler.fresh Reeller.defaultOptions.filler threeItems)
        = Except.ok s ∧
      s.wrapper = threeItems ++ threeItems.map cloneOf ∧
      cover s.wrapper 120 = some (plainItem 1 100, 20) ∧
      cover s.wrapper (300 + 120) = some (cloneOf (plainItem 1 100), 20) := by
  have h := (seamless_tiling (Filler.fresh Reeller.defaultOptions.filler threeItems)
    (by decide) (by decide) rfl rfl rfl).2 [] 750 250 (by decide)
  obtain ⟨s, d, hs, _⟩ := h
  have he : Filler.updates ([] ++ [(750, 250)])
      (Filler.fresh Reeller.defaultOptions.filler threeItems)
      = Except.ok { Filler.fresh Reeller.defaultOptions.filler threeItems with
          wrapper := threeItems ++ threeItems.map cloneOf
          clonesCount := 3
          calcData := some (planAt 250 [100, 100, 100] 3)
          log := [FillerEffect.refresh, FillerEffect.update (planAt 250 [100, 100, 100] 3)] } :=
    rfl
  rw [he] at hs
  cases hs
  exact ⟨_, he, rfl, by decide, by decide⟩

/-! ## Claims on the controller -/

/-- C9 (explicit pause and visibility), counterexample: on a freshly
constructed controller the user calls `pause()`, so the most recent explicit
request is a pause; the next visibility signal with `isIntersecting = true`
sets `this.paused` to false and resumes the timeline. -/
theorem explicit_pause_undone :
    ∃ r0, Reeller.construct [] 0 500 Reeller.defaultOptions threeItems = Except.ok r0 ∧
      lastExplicitIsPause [Action.pause] = true ∧
      (r0.run [Action.pause]).paused = true ∧
      (r0.run [Action.pause, Action.visibility true]).paused = false ∧
      (r0.run [Action.pause, Action.visibility true]).tl.paused = false ∧
      ReellerEffect.tlResume ∈ (r0.run [Action.pause, Action.visibility true]).log := by
  refine ⟨_, rfl, ?_, ?_, ?_, ?_, ?_⟩ <;> decide

theorem run_append (r : Reeller) (a b : List Action) : r.run (a ++ b) = (r.run a).run b := by
  simp [Reeller.run, List.foldl_append]

/-- C9 as amended: whatever the earlier user calls and visibility signals were
(an explicit `pause()` included), a visibility signal with
`isIntersecting = true` resumes the controller: `this.paused` and the
timeline's paused state are false afterwards and the calls of `resume()` are
made; a signal with `isIntersecting = false` pauses it. -/
theorem visibility_overrides_pause (r : Reeller) (actions : List Action) :
    (r.run (actions ++ [Action.visibility true])).paused = false ∧
    (r.run (actions ++ [Action.visibility true])).tl.paused = false ∧
    (r.run (actions ++ [Action.visibility true])).log
      = (r.run actions).log ++ [ReellerEffect.gsapSet "container" "z: 0",
          ReellerEffect.gsapSet "wrapper" "willChange: transform",
          ReellerEffect.tlResume, ReellerEffect.trigger "resume"] ∧
    (r.run (actions ++ [Action.visibility false])).paused = true ∧
    (r.run (actions ++ [Action.visibility false])).tl.paused = true := by
  simp only [run_append]
  refine ⟨rfl, rfl, rfl, rfl, rfl⟩

/-! ## Theorems: teardown -/

theorem scrollerDestroy_tickerFn (name : String) (p : ScrollerPlugin) :
    (p.destroy name).1.tickerFn = false := by
  cases h1 : p.tickerFn <;> cases h2 : p.tween <;> simp [ScrollerPlugin.destroy, h1, h2]

theorem scrollerDestroy_effects (name : String) (p : ScrollerPlugin) :
    ∀ e ∈ (p.destroy name).2,
      e = ReellerEffect.tickerRemove name ∧ p.tickerFn = true ∨ e = ReellerEffect.tweenKill name := by
  cases h1 : p.tickerFn <;> cases h2 : p.tween <;> simp [ScrollerPlugin.destroy, h1, h2]

theorem scrollerDestroy_count (name n : String) (p : ScrollerPlugin) :
    (p.destroy name).2.count (ReellerEffect.tickerRemove n)
      = if name = n ∧ p.tickerFn = true then 1 else 0 := by
  cases h1 : p.tickerFn <;> cases h2 : p.tween <;>
    by_cases hn : name = n <;> simp [ScrollerPlugin.destroy, h1, h2, hn, List.count_cons]

theorem destroyInstances_tickerFn (l : List (String × ScrollerPlugin)) :
    ∀ q ∈ (destroyInstances l).1, q.2.tickerFn = false := by
  induction l with
  | nil => intro q hq; simp [destroyInstances] at hq
  | cons a l ih =>
    obtain ⟨name, p⟩ := a
    intro q hq
    simp only [destroyInstances, List.mem_cons] at hq
    rcases hq with rfl | hq
    · exact scrollerDestroy_tickerFn name p
    · exact ih q hq

theorem destroyInstances_effects (l : List (String × ScrollerPlugin)) :
    ∀ e ∈ (destroyInstances l).2,
      (∃ n, e = ReellerEffect.tickerRemove n) ∨ (∃ n, e = ReellerEffect.tweenKill n) := by
  induction l with
  | nil => intro e he; simp [destroyInstances] at he
  | cons a l ih =>
    obtain ⟨name, p⟩ := a
    intro e he
    simp only [destroyInstances, List.mem_append] at he
    rcases he with he | he
    · rcases scrollerDestroy_effects name p e he with h | h
      · exact Or.inl ⟨name, h.1⟩
      · exact Or.inr ⟨name, h⟩
    · exact ih e he

theorem destroyInstances_count (n : String) (l : List (String × ScrollerPlugin)) :
    (destroyInstances l).2.count (ReellerEffect.tickerRemove n)
      = l.countP fun q => decide (q.1 = n ∧ q.2.tickerFn = true) := by
  induction l with
  | nil => simp [destroyInstances]
  | cons a l ih =>
    obtain ⟨name, p⟩ := a
    simp only [destroyInstances, List.count_append, scrollerDestroy_count, ih, List.countP_cons]
    by_cases h : name = n ∧ p.tickerFn = true
    · simp [h]; omega
    · simp [h]

theorem destroyInstances_count_done (n : String) (l : List (String × ScrollerPlugin))
    (h : ∀ q ∈ l, q.2.tickerFn = false) :
    (destroyInstances l).2.count (ReellerEffect.tickerRemove n) = 0 := by
  rw [destroyInstances_count, List.countP_eq_zero]
  intro q hq
  simp [h q hq]

theorem destroy_ok (r : Reeller) (removeClones clearProps : Bool)
    (hc : r.options.plugins.isSome = true → r.plugin.isSome = true) :
    r.destroy removeClones clearProps = Except.ok
      { r with
        plugin := if r.options.plugins.isSome
          then some (destroyInstances (r.plugin.getD [])).1 else r.plugin
        filler := r.filler.destroy removeClones
        log := r.log
          ++ (if r.intersectionObserver then [ReellerEffect.intersectionDisconnect] else [])
          ++ (if r.options.plugins.isSome then (destroyInstances (r.plugin.getD [])).2 else [])
          ++ [ReellerEffect.tlKill]
          ++ (if clearProps then [ReellerEffect.gsapSet "container" "clearProps: overflow",
                ReellerEffect.gsapSet "wrapper" "clearProps: x,willChange"] else [])
          ++ [ReellerEffect.trigger "destroy"] } := by
  obtain ⟨o, pa, tl, fi, io, pl, lg⟩ := r
  simp only at hc
  cases hp : o.plugins.isSome with
  | false =>
    cases io <;> cases clearProps <;> simp [Reeller.destroy, hp]
  | true =>
    obtain ⟨insts, rfl⟩ := Option.isSome_iff_exists.mp (hc hp)
    cases io <;> cases clearProps <;>
      simp [Reeller.destroy, Reeller.destroyPlugins, hp]

theorem fillerDestroy_log (s : Filler) (removeClones : Bool) :
    (s.destroy removeClones).log
      = s.log ++ (if s.resizeObserver then [FillerEffect.resizeDisconnect] else [])
          ++ [FillerEffect.destroy] ∧
    (s.destroy removeClones).resizeObserver = s.resizeObserver := by
  cases removeClones <;> cases h : s.resizeObserver <;>
    simp [Filler.destroy, Filler.removeClones, h]

theorem count_pluginEffects_zero (l : List (String × ScrollerPlugin)) (c : Bool)
    (e : ReellerEffect) (h1 : ∀ n, e ≠ ReellerEffect.tickerRemove n)
    (h2 : ∀ n, e ≠ ReellerEffect.tweenKill n) :
    (if c then (destroyInstances l).2 else []).count e = 0 := by
  cases c
  · simp
  · rw [if_pos rfl, List.count_eq_zero]
    intro he
    rcases destroyInstances_effects l e he with ⟨n, hn⟩ | ⟨n, hn⟩
    · exact h1 n hn
    · exact h2 n hn

/-- C10 (teardown twice), counterexample: a controller constructed with the
default options plus the scroller plugin is destroyed twice.  No error is
raised, but the timeline is killed twice, both observers are disconnected
twice, and the second call changes the state (it is not a no-op). -/
theorem second_destroy_releases_again :
    ∃ r0 r1 r2,
      Reeller.construct scrollerRegistry 0 500 scrollerOptions threeItems = Except.ok r0 ∧
      r0.destroy false false = Except.ok r1 ∧
      r1.destroy false false = Except.ok r2 ∧
      r2.log.count ReellerEffect.tlKill = 2 ∧
      r2.log.count ReellerEffect.intersectionDisconnect = 2 ∧
      r2.filler.log.count FillerEffect.resizeDisconnect = 2 ∧
      r2.log.count (ReellerEffect.tickerRemove "scroller") = 1 ∧
      r2 ≠ r1 := by
  refine ⟨_, _, _, rfl, rfl, rfl, ?_, ?_, ?_, ?_, ?_⟩ <;> decide

/-- C10 as amended: on a constructed controller (`this.plugin` is set whenever
plugins are configured) two `destroy()` calls both return without error.  The
ticker callbacks are removed by the first call, one removal per plugin whose
callback is registered, and none is removed by the second.  Every call,
however, kills the timeline once, disconnects the intersection observer once
when it is bound, disconnects the resize observer once when it is bound, and
emits `destroy` once. -/
theorem destroy_twice (r : Reeller)
    (hc : r.options.plugins.isSome = true → r.plugin.isSome = true)
    (rc1 cp1 rc2 cp2 : Bool) :
    ∃ r1 r2 e1 e2 f1 f2,
      r.destroy rc1 cp1 = Except.ok r1 ∧ r1.destroy rc2 cp2 = Except.ok r2 ∧
      r1.log = r.log ++ e1 ∧ r2.log = r1.log ++ e2 ∧
      r1.filler.log = r.filler.log ++ f1 ∧ r2.filler.log = r1.filler.log ++ f2 ∧
      (∀ n, e1.count (ReellerEffect.tickerRemove n)
        = if r.options.plugins.isSome
          then (r.plugin.getD []).countP fun q => decide (q.1 = n ∧ q.2.tickerFn = true)
          else 0) ∧
      (∀ n, e2.count (ReellerEffect.tickerRemove n) = 0) ∧
      e1.count ReellerEffect.tlKill = 1 ∧ e2.count ReellerEffect.tlKill = 1 ∧
      e1.count ReellerEffect.intersectionDisconnect = (if r.intersectionObserver then 1 else 0) ∧
      e2.count ReellerEffect.intersectionDisconnect = (if r.intersectionObserver then 1 else 0) ∧
      f1.count FillerEffect.resizeDisconnect = (if r.filler.resizeObserver then 1 else 0) ∧
      f2.count FillerEffect.resizeDisconnect = (if r.filler.resizeObserver then 1 else 0) ∧
      e1.count (ReellerEffect.trigger "destroy") = 1 ∧
      e2.count (ReellerEffect.trigger "destroy") = 1 := by
  have h1 := destroy_ok r rc1 cp1 hc
  obtain ⟨o, pa, tl, fi, io, pl, lg⟩ := r
  simp only at hc h1
  have hc2 : o.plugins.isSome = true →
      (if o.plugins.isSome then some (destroyInstances (pl.getD [])).1 else pl).isSome = true := by
    intro h; simp [h]
  have h2 := destroy_ok
    { options := o, paused := pa, tl := tl, filler := fi.destroy rc1, intersectionObserver := io,
      plugin := if o.plugins.isSome then some (destroyInstances (pl.getD [])).1 else pl,
      log := lg
        ++ (if io then [ReellerEffect.intersectionDisconnect] else [])
        ++ (if o.plugins.isSome then (destroyInstances (pl.getD [])).2 else [])
        ++ [ReellerEffect.tlKill]
        ++ (if cp1 then [ReellerEffect.gsapSet "container" "clearProps: overflow",
              ReellerEffect.gsapSet "wrapper" "clearProps: x,willChange"] else [])
        ++ [ReellerEffect.trigger "destroy"] } rc2 cp2 hc2
  simp only at h2
  have hf1 := fillerDestroy_log fi rc1
  have hf2 := fillerDestroy_log (fi.destroy rc1) rc2
  refine ⟨_, _,
    (if io then [ReellerEffect.intersectionDisconnect] else [])
      ++ (if o.plugins.isSome then (destroyInstances (pl.getD [])).2 else [])
      ++ [ReellerEffect.tlKill]
      ++ (if cp1 then [ReellerEffect.gsapSet "container" "clearProps: overflow",
            ReellerEffect.gsapSet "wrapper" "clearProps: x,willChange"] else [])
      ++ [ReellerEffect.trigger "destroy"],
    (if io then [ReellerEffect.intersectionDisconnect] else [])
      ++ (if o.plugins.isSome then (destroyInstances
            ((if o.plugins.isSome then some (destroyInstances (pl.getD [])).1 else pl).getD [])).2
          else [])
      ++ [ReellerEffect.tlKill]
      ++ (if cp2 then [ReellerEffect.gsapSet "container" "clearProps: overflow",
            ReellerEffect.gsapSet "wrapper" "clearProps: x,willChange"] else [])
      ++ [ReellerEffect.trigger "destroy"],
    (if fi.resizeObserver then [FillerEffect.resizeDisconnect] else []) ++ [FillerEffect.destroy],
    (if fi.resizeObserver then [FillerEffect.resizeDisconnect] else []) ++ [FillerEffect.destroy],
    h1, h2, ?_, ?_, ?_, ?_, ?_, ?_, ?_, ?_, ?_, ?_, ?_, ?_, ?_, ?_⟩
  · simp only [List.append_assoc]
  · simp only [List.append_assoc]
  · simp only [hf1.1, List.append_assoc]
  · simp only [hf2.1, hf1.2, List.append_assoc]
  · intro n
    cases hp : o.plugins.isSome with
    | false => cases io <;> cases cp1 <;> simp [List.count_cons]
    | true =>
      cases io <;> cases cp1 <;>
        simp [List.count_append, List.count_cons, destroyInstances_count]
  · intro n
    cases hp : o.plugins.isSome with
    | false => cases io <;> cases cp2 <;> simp [List.count_cons]
    | true =>
      have hz := destroyInstances_count_done n (destroyInstances (pl.getD [])).1
        (destroyInstances_tickerFn _)
      cases io <;> cases cp2 <;>
        simp [List.count_append, List.count_cons, hz]
  · have hz := count_pluginEffects_zero (pl.getD []) o.plugins.isSome ReellerEffect.tlKill
      (by intro n h; cases h) (by intro n h; cases h)
    cases io <;> cases cp1 <;> simp [List.count_append, List.count_cons, hz]
  · have hz := count_pluginEffects_zero
      ((if o.plugins.isSome then some (destroyInstances (pl.getD [])).1 else pl).getD [])
      o.plugins.isSome ReellerEffect.tlKill (by intro n h; cases h) (by intro n h; cases h)
    cases io <;> cases cp2 <;> simp [List.count_append, List.count_cons, hz]
  · have hz := count_pluginEffects_zero (pl.getD []) o.plugins.isSome
      ReellerEffect.intersectionDisconnect (by intro n h; cases h) (by intro n h; cases h)
    cases io <;> cases cp1 <;> simp [List.count_append, List.count_cons, hz]
  · have hz := count_pluginEffects_zero
      ((if o.plugins.isSome then some (destroyInstances (pl.getD [])).1 else pl).getD [])
      o.plugins.isSome ReellerEffect.intersectionDisconnect
      (by intro n h; cases h) (by intro n h; cases h)
    cases io <;> cases cp2 <;> simp [List.count_append, List.count_cons, hz]
  · cases fi.resizeObserver <;> simp [List.count_cons]
  · cases fi.resizeObserver <;> simp [List.count_cons]
  · have hz := count_pluginEffects_zero (pl.getD []) o.plugins.isSome
      (ReellerEffect.trigger "destroy") (by intro n h; cases h) (by intro n h; cases h)
    cases io <;> cases cp1 <;> simp [List.count_append, List.count_cons, hz]
  · have hz := count_pluginEffects_zero
      ((if o.plugins.isSome then some (destroyInstances (pl.getD [])).1 else pl).getD [])
      o.plugins.isSome (ReellerEffect.trigger "destroy")
      (by intro n h; cases h) (by intro n h; cases h)
    cases io <;> cases cp2 <;> simp [List.count_append, List.count_cons, hz]

/-- Witness of C10, scenario E: a controller constructed with the scroller
plugin is destroyed twice; the ticker callback is removed once, by the first
call, while the second call kills the timeline again. -/
theorem destroy_twice_witness :
    ∃ r0 r1 r2 e1 e2,
      Reeller.construct scrollerRegistry 0 500 scrollerOptions threeItems = Except.ok r0 ∧
      r0.destroy true true = Except.ok r1 ∧
      r1.destroy false false = Except.ok r2 ∧
      r1.log = r0.log ++ e1 ∧
      r2.log = r1.log ++ e2 ∧
      e1.count (ReellerEffect.tickerRemove "scroller") = 1 ∧
      e2.count (ReellerEffect.tickerRemove "scroller") = 0 ∧
      e2.count ReellerEffect.tlKill = 1 := by
  obtain ⟨r0, hr0⟩ : ∃ r0, Reeller.construct scrollerRegistry 0 500 scrollerOptions threeItems
      = Except.ok r0 := ⟨_, rfl⟩
  have he : Reeller.construct scrollerRegistry 0 500 scrollerOptions threeItems
      = Except.ok
          { options := scrollerOptions, paused := true,
            tl := { paused := true, reversed := false },
            filler := Filler.fresh scrollerOptions.filler threeItems,
            intersectionObserver := true,
            plugin := some [("scroller", { tickerFn := true, tween := false })],
            log := [] } := rfl
  have hr := (Except.ok.inj (he.symm.trans hr0)).symm
  obtain ⟨r1, r2, e1, e2, _, _, h1, h2, h3, h4, _, _, h5, h6, _, h8, _⟩ :=
    destroy_twice r0 (by rw [hr]; decide) true true false false
  refine ⟨r0, r1, r2, e1, e2, hr0, h1, h2, h3, h4, (h5 "scroller").trans ?_, h6 "scroller", h8⟩
  rw [hr]
  decide

/-! ## Claims on the ticker callback -/

theorem jsSign_pos {v : ℚ} (h : 0 < v) : jsSign v = 1 := by
  simp [jsSign, h]

theorem jsSign_neg {v : ℚ} (h : v < 0) : jsSign v = -1 := by
  simp [jsSign, h, not_lt.mpr (le_of_lt h)]

theorem jsSign_zero : jsSign 0 = 0 := by
  simp [jsSign]

theorem target_sign_abs (t delta : ℚ) (hd : delta ≠ 0) :
    jsSign (if delta > 0 then max t delta else min (-t) delta) = jsSign delta ∧
    |if delta > 0 then max t delta else min (-t) delta| = max t |delta| := by
  rcases lt_or_gt_of_ne hd with hneg | hpos
  · have h1 : ¬ delta > 0 := not_lt.mpr (le_of_lt hneg)
    have h2 : min (-t) delta < 0 := lt_of_le_of_lt (min_le_right _ _) hneg
    rw [if_neg h1, jsSign_neg h2, jsSign_neg hneg, abs_of_neg h2, abs_of_neg hneg]
    refine ⟨rfl, ?_⟩
    rw [← max_neg_neg, neg_neg]
  · have h2 : 0 < max t delta := lt_of_lt_of_le hpos (le_max_right _ _)
    rw [if_pos hpos, jsSign_pos h2, jsSign_pos hpos, abs_of_pos h2, abs_of_pos hpos]
    exact ⟨rfl, rfl⟩

/-- C11 (velocity-to-speed mapping): on a tick with the controller playing and
a non-zero direction-adjusted velocity, exactly one tween is started, towards
`max(threshold, delta)` if `delta > 0` and `min(-threshold, delta)` otherwise,
with `delta = velocity * multiplier`; for `threshold >= 0` and `delta != 0`
that target has the sign of `delta` and magnitude `max(threshold, |delta|)`. -/
theorem velocity_to_speed (o : ScrollerPluginOptions) (st : TickerState) (scrollPos : ℚ)
    (hv : adjustedVelocity o st.lastScrollPos scrollPos ≠ 0) :
    (tickerFn o false scrollPos st).2
      = [TickEffect.tweenTo
          (if adjustedVelocity o st.lastScrollPos scrollPos * o.multiplier > 0
            then max o.threshold (adjustedVelocity o st.lastScrollPos scrollPos * o.multiplier)
            else min (-o.threshold) (adjustedVelocity o st.lastScrollPos scrollPos * o.multiplier))
          o.speed o.ease o.overwrite] ∧
    (0 ≤ o.threshold → adjustedVelocity o st.lastScrollPos scrollPos * o.multiplier ≠ 0 →
      jsSign (targetTimeScale o (adjustedVelocity o st.lastScrollPos scrollPos))
        = jsSign (adjustedVelocity o st.lastScrollPos scrollPos * o.multiplier) ∧
      |targetTimeScale o (adjustedVelocity o st.lastScrollPos scrollPos)|
        = max o.threshold |adjustedVelocity o st.lastScrollPos scrollPos * o.multiplier|) := by
  refine ⟨?_, fun _ hd => ?_⟩
  · simp [tickerFn, hv, targetTimeScale]
  · exact target_sign_abs _ _ hd

/-- Witness of C11, scenario D, first tick: from scroll position 0 to 10 with
multiplier 1/2 and threshold 1 the tween targets speed 5. -/
theorem velocity_to_speed_witness :
    adjustedVelocity ScrollerPlugin.defaultOptions (TickerState.init 0).lastScrollPos 10 = 10 ∧
    (tickerFn ScrollerPlugin.defaultOptions false 10 (TickerState.init 0)).2
      = [TickEffect.tweenTo 5 1 "expo.out" true] := by
  have hv : adjustedVelocity ScrollerPlugin.defaultOptions (TickerState.init 0).lastScrollPos 10
      = 10 := by
    norm_num [adjustedVelocity, ScrollerPlugin.defaultOptions, TickerState.init]
  have h := (velocity_to_speed ScrollerPlugin.defaultOptions (TickerState.init 0) 10
    (by rw [hv]; norm_num)).1
  rw [hv] at h
  refine ⟨hv, ?_⟩
  rw [h]
  norm_num [ScrollerPlugin.defaultOptions]

theorem adjustedVelocity_self (o : ScrollerPluginOptions) (x : ℚ) :
    adjustedVelocity o x x = 0 := by
  cases hb : o.bothDirection <;> cases hr : o.reversed <;> simp [adjustedVelocity, hb, hr]

theorem tickerFn_settled_idle (o : ScrollerPluginOptions) (x d : ℚ) :
    tickerFn o false x { lastScrollPos := x, lastDirection := d, reachedEnd := true }
      = ({ lastScrollPos := x, lastDirection := 0, reachedEnd := true }, []) := by
  simp [tickerFn, adjustedVelocity_self, jsSign_zero]

theorem tickerRun_settled_idle (o : ScrollerPluginOptions) (x : ℚ) :
    ∀ (k : Nat) (d : ℚ),
      (tickerRun o (List.replicate k (false, x))
        { lastScrollPos := x, lastDirection := d, reachedEnd := true }).2
        = List.replicate k [] := by
  intro k
  induction k with
  | zero => intro d; rfl
  | succ k ih =>
    intro d
    simp only [List.replicate_succ, tickerRun, tickerFn_settled_idle, ih]

/-- C12 (settling): with the controller playing, a tick of non-zero
(direction-adjusted) velocity followed by a tick of zero velocity makes the
second tick cancel the tweens and start exactly one tween, towards 0 under
`stopOnEnd` and otherwise towards `sign(velocity of the first tick) * threshold`;
every further consecutive zero-velocity tick makes no call at all. -/
theorem settling (o : ScrollerPluginOptions) (st : TickerState) (scrollPos : ℚ)
    (hv : adjustedVelocity o st.lastScrollPos scrollPos ≠ 0) :
    (tickerFn o false scrollPos (tickerFn o false scrollPos st).1).2
      = [TickEffect.killTweensOf,
         TickEffect.tweenTo
          (if o.stopOnEnd then 0
            else jsSign (adjustedVelocity o st.lastScrollPos scrollPos) * o.threshold)
          o.speed o.ease o.overwrite] ∧
    ((tickerFn o false scrollPos (tickerFn o false scrollPos st).1).2.filter
      TickEffect.startsTween).length = 1 ∧
    ∀ k : Nat,
      (tickerRun o (List.replicate k (false, scrollPos))
        (tickerFn o false scrollPos (tickerFn o false scrollPos st).1).1).2
        = List.replicate k [] := by
  have h1 : (tickerFn o false scrollPos st).1
      = { lastScrollPos := scrollPos,
          lastDirection := jsSign (adjustedVelocity o st.lastScrollPos scrollPos),
          reachedEnd := false } := by
    simp [tickerFn, hv]
  have h2 : tickerFn o false scrollPos (tickerFn o false scrollPos st).1
      = ({ lastScrollPos := scrollPos, lastDirection := 0, reachedEnd := true },
         [TickEffect.killTweensOf,
          TickEffect.tweenTo
            (if o.stopOnEnd then 0
              else jsSign (adjustedVelocity o st.lastScrollPos scrollPos) * o.threshold)
            o.speed o.ease o.overwrite]) := by
    rw [h1]
    simp [tickerFn, adjustedVelocity_self, jsSign_zero]
  rw [h2]
  refine ⟨rfl, by simp [TickEffect.startsTween], fun k => tickerRun_settled_idle o scrollPos k 0⟩

/-- Witness of C12, scenario D: scroll positions 0, 10, 10, 10 (the first read
by `init`), multiplier 1/2, threshold 1.  Tick 1 targets 5, tick 2 cancels and
targets 1 (idle creep) or 0 (`stopOnEnd`), tick 3 starts nothing. -/
theorem settling_witness :
    adjustedVelocity ScrollerPlugin.defaultOptions (TickerState.init 0).lastScrollPos 10 ≠ 0 ∧
    (tickerRun ScrollerPlugin.defaultOptions [(false, 10), (false, 10), (false, 10)]
        (TickerState.init 0)).2
      = [[TickEffect.tweenTo 5 1 "expo.out" true],
         [TickEffect.killTweensOf, TickEffect.tweenTo 1 1 "expo.out" true], []] ∧
    (tickerRun stopOnEndOptions [(false, 10), (false, 10), (false, 10)] (TickerState.init 0)).2
      = [[TickEffect.tweenTo 5 1 "expo.out" true],
         [TickEffect.killTweensOf, TickEffect.tweenTo 0 1 "expo.out" true], []] := by
  have hv : adjustedVelocity ScrollerPlugin.defaultOptions (TickerState.init 0).lastScrollPos 10
      = 10 := by
    norm_num [adjustedVelocity, ScrollerPlugin.defaultOptions, TickerState.init]
  have hv2 : adjustedVelocity stopOnEndOptions (TickerState.init 0).lastScrollPos 10 = 10 := by
    norm_num [adjustedVelocity, stopOnEndOptions, ScrollerPlugin.defaultOptions,
      TickerState.init]
  have h := settling ScrollerPlugin.defaultOptions (TickerState.init 0) 10 (by rw [hv]; norm_num)
  have h2 := settling stopOnEndOptions (TickerState.init 0) 10 (by rw [hv2]; norm_num)
  have e1 : (tickerFn ScrollerPlugin.defaultOptions false 10 (TickerState.init 0)).2
      = [TickEffect.tweenTo 5 1 "expo.out" true] := by
    simp only [tickerFn, hv]
    norm_num [targetTimeScale, ScrollerPlugin.defaultOptions]
  have e2 : (tickerFn stopOnEndOptions false 10 (TickerState.init 0)).2
      = [TickEffect.tweenTo 5 1 "expo.out" true] := by
    simp only [tickerFn, hv2]
    norm_num [targetTimeScale, stopOnEndOptions, ScrollerPlugin.defaultOptions]
  have k1 := h.2.2 1
  have k2 := h2.2.2 1
  simp only [List.replicate_succ, List.replicate_zero, tickerRun, List.cons.injEq,
    and_true] at k1 k2
  refine ⟨by rw [hv]; norm_num, ?_, ?_⟩
  · simp only [tickerRun]
    rw [e1, h.1, k1, hv]
    norm_num [ScrollerPlugin.defaultOptions, jsSign]
  · simp only [tickerRun]
    rw [e2, h2.1, k2]
    norm_num [stopOnEndOptions, ScrollerPlugin.defaultOptions]

/-- C17 (paused tick), counterexample: with the default options the scroll
position goes from 0 to 10 and stays; tick 2 settles and starts a tween of one
second.  The controller is then paused: tick 3 only sets the speed to 0 and
calls no `killTweensOf`, so the tween started by tick 2 is not cancelled. -/
theorem settle_tween_survives_pause :
    (tickerRun ScrollerPlugin.defaultOptions [(false, 10), (false, 10), (true, 10)]
        (TickerState.init 0)).2
      = [[TickEffect.tweenTo 5 1 "expo.out" true],
         [TickEffect.killTweensOf, TickEffect.tweenTo 1 1 "expo.out" true],
         [TickEffect.setTimeScale 0]] ∧
    TickEffect.killTweensOf ∉ [TickEffect.setTimeScale 0] := by
  have hv : adjustedVelocity ScrollerPlugin.defaultOptions (TickerState.init 0).lastScrollPos 10
      = 10 := by
    norm_num [adjustedVelocity, ScrollerPlugin.defaultOptions, TickerState.init]
  have e1 : tickerFn ScrollerPlugin.defaultOptions false 10 (TickerState.init 0)
      = ({ lastScrollPos := 10, lastDirection := 1, reachedEnd := false },
         [TickEffect.tweenTo 5 1 "expo.out" true]) := by
    simp only [tickerFn, hv]
    norm_num [targetTimeScale, ScrollerPlugin.defaultOptions, jsSign]
  have e2 : tickerFn ScrollerPlugin.defaultOptions false 10
      { lastScrollPos := 10, lastDirection := 1, reachedEnd := false }
      = ({ lastScrollPos := 10, lastDirection := 0, reachedEnd := true },
         [TickEffect.killTweensOf, TickEffect.tweenTo 1 1 "expo.out" true]) := by
    simp only [tickerFn, adjustedVelocity_self]
    norm_num [ScrollerPlugin.defaultOptions, jsSign]
  have e3 : tickerFn ScrollerPlugin.defaultOptions true 10
      { lastScrollPos := 10, lastDirection := 0, reachedEnd := true }
      = ({ lastScrollPos := 10, lastDirection := 0, reachedEnd := true },
         [TickEffect.setTimeScale 0]) := by
    simp only [tickerFn, adjustedVelocity_self]
    norm_num [jsSign]
  refine ⟨?_, by decide⟩
  simp only [tickerRun, e1, e2, e3]

/-- C17 as amended: on a tick with the controller paused no tween is started,
the timeline speed is set directly to `sign(velocity) * threshold`,
`lastDirection` and `lastScrollPos` become `sign(velocity)` and the scroll
position read, and the state is settled afterwards; `killTweensOf` is called
before that only when the plugin was in the moving state (`reachedEnd` false),
and not at all when it was settled. -/
theorem paused_tick (o : ScrollerPluginOptions) (st : TickerState) (scrollPos : ℚ) :
    tickerFn o true scrollPos st
      = ({ lastScrollPos := scrollPos,
           lastDirection := jsSign (adjustedVelocity o st.lastScrollPos scrollPos),
           reachedEnd := true },
         (if st.reachedEnd then [] else [TickEffect.killTweensOf])
           ++ [TickEffect.setTimeScale
                (jsSign (adjustedVelocity o st.lastScrollPos scrollPos) * o.threshold)]) ∧
    (tickerFn o true scrollPos st).2.filter TickEffect.startsTween = [] := by
  cases h : st.reachedEnd <;> simp [tickerFn, h, TickEffect.startsTween]

/-! ## Claims on events -/

theorem objGet_objSet_same {α : Type} (key : String) (value : α) (l : List (String × α)) :
    objGet key (objSet key value l) = some value := by
  induction l with
  | nil => simp [objSet, objGet]
  | cons a l ih =>
    obtain ⟨k, v⟩ := a
    by_cases h : k = key
    · simp [objSet, objGet, h]
    · simp [objSet, objGet, h, ih]

theorem objGet_objSet_ne {α : Type} (key other : String) (value : α) (l : List (String × α))
    (h : other ≠ key) : objGet other (objSet key value l) = objGet other l := by
  induction l with
  | nil => simp [objSet, objGet, Ne.symm h]
  | cons a l ih =>
    obtain ⟨k, v⟩ := a
    by_cases hk : k = key
    · subst hk
      simp [objSet, objGet, Ne.symm h]
    · by_cases hk2 : k = other
      · subst hk2
        simp [objSet, objGet, hk]
      · simp [objSet, objGet, hk, hk2, ih]

theorem inherited_ne_array (key : String) (b : Base) (handlers : List Handler) :
    b.inherited key ≠ PropValue.array handlers := by
  unfold Base.inherited
  cases b.proto with
  | none => simp only []; split <;> simp
  | some arr => simp only []; split_ifs <;> simp

theorem on_plain (event : String) (callback : Handler) (b : Base)
    (he : event ≠ "__proto__") :
    b.on event callback
      = { b with events :=
            match objGet event b.events with
            | some handlers => objSet event (handlers ++ [callback]) b.events
            | none => objSet event [callback] (objSet event [] b.events) } := by
  cases hg : objGet event b.events with
  | some handlers =>
    simp [Base.on, Base.read, Base.assign, he, hg]
  | none =>
    cases hi : b.inherited event with
    | array handlers => exact absurd hi (inherited_ne_array event b handlers)
    | undefined => simp [Base.on, Base.read, Base.assign, he, hg, hi, objGet_objSet_same]
    | other t => simp [Base.on, Base.read, Base.assign, he, hg, hi, objGet_objSet_same]

theorem handlers_on (event other : String) (callback : Handler) (b : Base)
    (he : event ≠ "__proto__") :
    (b.on event callback).handlers other
      = if other = event then b.handlers event ++ [callback] else b.handlers other := by
  rw [on_plain event callback b he]
  cases hg : objGet event b.events with
  | none =>
    by_cases h : other = event
    · subst h
      simp [Base.handlers, hg, objGet_objSet_same]
    · simp [Base.handlers, objGet_objSet_ne _ _ _ _ h, h]
  | some hs =>
    by_cases h : other = event
    · subst h
      simp [Base.handlers, hg, objGet_objSet_same]
    · simp [Base.handlers, objGet_objSet_ne _ _ _ _ h, h]

theorem proto_on (event : String) (callback : Handler) (b : Base)
    (he : event ≠ "__proto__") : (b.on event callback).proto = b.proto := by
  rw [on_plain event callback b he]

theorem handlers_subscribe (event : String) :
    ∀ (subs : List (String × Handler)) (b : Base),
      (∀ sub ∈ subs, sub.1 ≠ "__proto__") →
      (b.subscribe subs).handlers event
          = b.handlers event ++ (subs.filter fun sub => sub.1 = event).map (fun sub => sub.2) ∧
        (b.subscribe subs).proto = b.proto := by
  intro subs
  induction subs with
  | nil => intro b _; simp [Base.subscribe]
  | cons sub subs ih =>
    intro b hs
    have hstep : b.subscribe (sub :: subs) = (b.on sub.1 sub.2).subscribe subs := rfl
    have hsub : sub.1 ≠ "__proto__" := hs sub (List.mem_cons_self _ _)
    obtain ⟨h1, h2⟩ := ih (b.on sub.1 sub.2) (fun x hx => hs x (List.mem_cons_of_mem _ hx))
    rw [hstep, h1, h2, handlers_on _ _ _ _ hsub, proto_on _ _ _ hsub]
    refine ⟨?_, rfl⟩
    by_cases h : sub.1 = event
    · simp [h]
    · simp [h, Ne.symm h]

theorem trigger_plain (event : String) (params : List Nat) (b : Base) (hp : b.proto = none)
    (he : objectPrototypeNames.contains event = false) :
    b.trigger event params
      = Except.ok ((b.handlers event).map fun f =>
          { handler := f, thisArg := Arg.emitter, args := Arg.emitter :: params.map Arg.param }) := by
  have hne : event ≠ "__proto__" := by
    intro h
    rw [h] at he
    revert he
    decide
  have he2 : event ∉ objectPrototypeNames := by simpa using he
  cases h : objGet event b.events <;>
    simp [Base.trigger, Base.read, Base.inherited, Base.handlers, h, hne, hp, he2]

/-- Dispatch order on ordinary names: on an emitter whose `events` object still
has `Object.prototype` as prototype, after `on` calls for events other than
`__proto__`, `trigger` of an event whose name is not inherited from
`Object.prototype` calls the handlers of that event, once per subscription and
in subscription order, with the emitter as `this` and first argument. -/
theorem dispatch_order_plain (b : Base) (hp : b.proto = none)
    (subs : List (String × Handler)) (hs : ∀ sub ∈ subs, sub.1 ≠ "__proto__")
    (event : String) (he : objectPrototypeNames.contains event = false) (params : List Nat) :
    (b.subscribe subs).trigger event params
      = Except.ok ((b.handlers event
            ++ (subs.filter fun sub => sub.1 = event).map fun sub => sub.2).map
          (fun f => { handler := f, thisArg := Arg.emitter,
                      args := Arg.emitter :: params.map Arg.param })) := by
  obtain ⟨h1, h2⟩ := handlers_subscribe event subs b hs
  rw [trigger_plain event params _ (h2.trans hp) he, h1]

/-- C13 (event dispatch order), the code at the failing input: on a new
emitter, where nothing is subscribed, `trigger('toString')` throws a
`TypeError`: `this.events` is a plain object, so `this.events['toString']` is
the inherited function, the guard `!this.events[event]` lets it pass and it has
no `forEach`.  An ordinary name such as `update` returns without a call, and
`on('toString', h)`, which tests `instanceof Array`, does create the array, so
that `trigger('toString')` then calls `h`. -/
theorem trigger_inherited_name_throws :
    Base.new.trigger "toString" [] = Except.error Failure.typeError ∧
    Base.new.trigger "constructor" [] = Except.error Failure.typeError ∧
    Base.new.trigger "update" [] = Except.ok [] ∧
    (Base.new.on "toString" 7).trigger "toString" [3]
      = Except.ok [{ handler := 7, thisArg := Arg.emitter,
                     args := [Arg.emitter, Arg.param 3] }] :=
  ⟨rfl, rfl, rfl, rfl⟩

/-- C14 (unsubscribe), the code at the failing input: on a new emitter, where
`update` was never subscribed to, `off('update', h)` throws a `TypeError`
(`filter` of `undefined`), whereas `off('update')` without handler and
`trigger('update')` guard the missing entry and return. -/
theorem off_unsubscribed_throws :
    Base.new.off "update" (some 7) = Except.error Failure.typeError ∧
    Base.new.off "update" none = Except.ok { events := [("update", [])] } ∧
    Base.new.trigger "update" [] = Except.ok [] ∧
    (Base.new.on "update" 7).off "update" (some 7) = Except.ok { events := [("update", [])] } :=
  ⟨rfl, rfl, rfl, rfl⟩

/-! ## Claims on plugin registration -/

theorem use_eq : ∀ (plugins : List Plugin) (registry : List (String × Plugin)),
    Reeller.use plugins registry
      = (registerAll (validPrefix plugins) registry,
         if plugins.all (fun p => p.pluginName.isSome) then none else some Failure.typeError) := by
  intro plugins
  induction plugins with
  | nil => intro registry; rfl
  | cons p ps ih =>
    intro registry
    cases hn : p.pluginName with
    | none => simp [Reeller.use, hn, validPrefix, registerAll]
    | some name =>
      have hv : validPrefix (p :: ps) = p :: validPrefix ps := by
        simp [validPrefix, hn]
      have hr : registerAll (p :: validPrefix ps) registry
          = registerAll (validPrefix ps) (objSet name p registry) := by
        simp [registerAll, hn]
      simp only [Reeller.use, hn, ih, hv, hr, List.all_cons, Option.isSome_some, Bool.true_and]

theorem objGet_registerAll (name : String) :
    ∀ (plugins : List Plugin) (registry : List (String × Plugin)),
      objGet name (registerAll plugins registry)
        = match plugins.reverse.find? (fun p => decide (p.pluginName = some name)) with
          | some p => some p
          | none => objGet name registry := by
  intro plugins
  induction plugins with
  | nil => intro registry; rfl
  | cons p ps ih =>
    intro registry
    have hr : registerAll (p :: ps) registry
        = registerAll ps (match p.pluginName with
            | some n => objSet n p registry
            | none => registry) := rfl
    rw [hr, ih, List.reverse_cons, List.find?_append]
    cases hf : ps.reverse.find? (fun q => decide (q.pluginName = some name)) with
    | some q => simp
    | none =>
      cases hn : p.pluginName with
      | none => simp [hn]
      | some n =>
        by_cases h : n = name
        · subst h
          simp [hn, objGet_objSet_same]
        · have h2 : name ≠ n := Ne.symm h
          simp [hn, h, objGet_objSet_ne _ _ _ _ h2]

theorem validPrefix_eq_self (plugins : List Plugin)
    (h : ∀ p ∈ plugins, p.pluginName ≠ none) : validPrefix plugins = plugins := by
  simp only [validPrefix, List.takeWhile_eq_self_iff]
  intro p hp
  exact Option.isSome_iff_ne_none.mpr (h p hp)

/-- C15 (plugin registration), counterexample: `use(scroller, nameless)` on an
empty registry throws a `TypeError`, and yet the registry has changed: the
scroller plugin, listed before the nameless one, is stored. -/
theorem use_keeps_earlier_plugins :
    Reeller.use [scrollerPlugin, namelessPlugin] []
      = ([("scroller", scrollerPlugin)], some Failure.typeError) ∧
    (Reeller.use [scrollerPlugin, namelessPlugin] []).1 ≠ [] := by
  decide

/-- C15 as amended: `Reeller.use(p1..pn)` throws a `TypeError` if and only if
some given plugin has no string `pluginName`, and returns normally otherwise.
In both cases the registry afterwards is the old one with the plugins listed
before the first nameless one stored in order, each under its name (all of them
when none is nameless): a name then reads the last such plugin carrying it,
and what the registry held before when there is none. -/
theorem use_registers (plugins : List Plugin) (registry : List (String × Plugin)) :
    ((Reeller.use plugins registry).2 = some Failure.typeError
      ↔ ∃ p ∈ plugins, p.pluginName = none) ∧
    ((Reeller.use plugins registry).2 = none ↔ ∀ p ∈ plugins, p.pluginName ≠ none) ∧
    (Reeller.use plugins registry).1 = registerAll (validPrefix plugins) registry ∧
    ((∀ p ∈ plugins, p.pluginName ≠ none) →
      (Reeller.use plugins registry).1 = registerAll plugins registry) ∧
    ∀ name, objGet name (Reeller.use plugins registry).1
      = match (validPrefix plugins).reverse.find? (fun p => decide (p.pluginName = some name)) with
        | some p => some p
        | none => objGet name registry := by
  rw [use_eq]
  refine ⟨?_, ?_, rfl, fun h => ?_, fun name => objGet_registerAll name _ _⟩
  · cases hb : plugins.all (fun p => p.pluginName.isSome) with
    | true =>
      simp only [if_true]
      constructor
      · intro hc; cases hc
      · rintro ⟨p, hp, hn⟩
        have := List.all_eq_true.mp hb p hp
        simp [hn] at this
    | false =>
      have hex : ∃ p ∈ plugins, p.pluginName = none := by
        by_contra hno
        push_neg at hno
        have : plugins.all (fun p => p.pluginName.isSome) = true :=
          List.all_eq_true.mpr fun p hp => Option.isSome_iff_ne_none.mpr (hno p hp)
        rw [hb] at this
        cases this
      simp only [Bool.false_eq_true, if_false, true_iff]
      exact hex
  · cases hb : plugins.all (fun p => p.pluginName.isSome) with
    | true =>
      simp only [if_true, true_iff]
      intro p hp
      exact Option.isSome_iff_ne_none.mp (List.all_eq_true.mp hb p hp)
    | false =>
      simp only [Bool.false_eq_true, if_false]
      constructor
      · intro hc; cases hc
      · intro hall
        have : plugins.all (fun p => p.pluginName.isSome) = true :=
          List.all_eq_true.mpr fun p hp => Option.isSome_iff_ne_none.mpr (hall p hp)
        rw [hb] at this
        cases this
  · show registerAll (validPrefix plugins) registry = registerAll plugins registry
    rw [validPrefix_eq_self plugins h]

/-- Witness of C15: `use(scroller)` on an empty registry returns normally and
stores the scroller plugin under `scroller`. -/
theorem use_registers_witness :
    (∀ p ∈ [scrollerPlugin], p.pluginName ≠ none) ∧
    (Reeller.use [scrollerPlugin] []).2 = none ∧
    (Reeller.use [scrollerPlugin] []).1 = registerAll [scrollerPlugin] [] ∧
    objGet "scroller" (Reeller.use [scrollerPlugin] []).1 = some scrollerPlugin := by
  have hall : ∀ p ∈ [scrollerPlugin], p.pluginName ≠ none := by decide
  have h := use_registers [scrollerPlugin] []
  exact ⟨hall, h.2.1.mpr hall, h.2.2.2.1 hall, by decide⟩

/-! ## Claims on overshoot and termination -/

theorem cycSum_length (ws : List Int) : cycSum ws ws.length = ws.sum := by
  have h : (List.range ws.length).map (fun i => ws.getD (i % ws.length) 0) = ws := by
    apply List.ext_getElem
    · simp
    · intro n h1 h2
      simp [Nat.mod_eq_of_lt h2, List.getElem?_eq_getElem h2]
  simp only [cycSum, h]

theorem cycSum_add_length (ws : List Int) (m : Nat) :
    cycSum ws (ws.length + m) = ws.sum + cycSum ws m := by
  have h := cycSum_length ws
  simp only [cycSum] at h ⊢
  rw [List.range_add, List.map_append, List.sum_append, h, List.map_map]
  congr 2
  apply List.map_congr_left
  intro j _
  simp only [Function.comp, Nat.add_mod_left]

theorem sum_pos_of_pos {ws : List Int} (hne : ws ≠ []) (hpos : ∀ w ∈ ws, 0 < w) :
    0 < ws.sum := by
  have hlen : 0 < ws.length := List.length_pos.mpr hne
  have := le_cycSum hne hpos ws.length
  rw [cycSum_length] at this
  omega

theorem getD_le_sum {ws : List Int} (hpos : ∀ w ∈ ws, 0 < w) {i : Nat} (hi : i < ws.length) :
    ws.getD i 0 ≤ ws.sum := by
  rw [List.getD_eq_getElem _ _ hi]
  exact List.single_le_sum (fun x hx => le_of_lt (hpos x hx)) _ (List.getElem_mem hi)

/-- The overshoot bounds on the plan at the least admissible clone count, for
`clonesMin = 0`. -/
theorem plan_overshoot {ws : List Int} (hne : ws ≠ []) (hpos : ∀ w ∈ ws, 0 < w)
    (o : FillerOptions) (cw : Int) (hmin : o.clonesMin = 0) (N : Nat)
    (hok : PlanOk o cw ws N) (hleast : ∀ m, m < N → ¬ PlanOk o cw ws m) :
    cycSum ws N < max (fillTarget o cw ws) 0 + ws.sum ∧
    (o.clonesFinish = false → 0 < N →
      cycSum ws N - ws.getD ((N - 1) % ws.length) 0 < fillTarget o cw ws) := by
  have hlen : 0 < ws.length := List.length_pos.mpr hne
  have hsum := sum_pos_of_pos hne hpos
  have hprev : o.clonesFinish = false → 0 < N → cycSum ws (N - 1) < fillTarget o cw ws := by
    intro hf hN
    have hnot := hleast (N - 1) (by omega)
    by_contra hc
    apply hnot
    refine ⟨not_lt.mp hc, by rw [hmin]; omega, fun h => ?_⟩
    rw [hf] at h
    cases h
  have hstep : 0 < N → cycSum ws N = cycSum ws (N - 1) + ws.getD ((N - 1) % ws.length) 0 := by
    intro hN
    have := cycSum_succ ws (N - 1)
    rwa [Nat.sub_add_cancel hN] at this
  refine ⟨?_, fun hf hN => ?_⟩
  · rcases Nat.eq_zero_or_pos N with h0 | hN
    · subst h0
      rw [cycSum_zero]
      have := le_max_right (fillTarget o cw ws) 0
      omega
    · have hmax := le_max_left (fillTarget o cw ws) 0
      cases hf : o.clonesFinish with
      | false =>
        have h1 := hprev hf hN
        have h2 := getD_le_sum hpos (Nat.mod_lt (N - 1) hlen)
        rw [hstep hN]
        omega
      | true =>
        have hmod := hok.2.2 hf
        have hge : ws.length ≤ N := Nat.le_of_dvd hN (Nat.dvd_of_mod_eq_zero hmod)
        have hnot := hleast (N - ws.length) (by omega)
        have hmod2 : (N - ws.length) % ws.length = 0 := by
          have := Nat.sub_mod_eq_zero_of_mod_eq (m := N) (n := ws.length) (k := ws.length)
            (by rw [hmod, Nat.mod_self])
          exact this
        have hlt : cycSum ws (N - ws.length) < fillTarget o cw ws := by
          by_contra hc
          apply hnot
          exact ⟨not_lt.mp hc, by rw [hmin]; omega, fun _ => hmod2⟩
        have hper := cycSum_add_length ws (N - ws.length)
        rw [Nat.add_sub_cancel' hge] at hper
        rw [hper]
        omega
  · have h1 := hprev hf hN
    rw [hstep hN]
    omega

/-- C16 (bounded overshoot): on a non-empty item list of positive widths with
`clonesMin = 0`, `getCalcData` returns for every sufficient budget and every
result has `clonesWidth < max(target, 0) + itemsWidth`, with or without
`clonesFinish`; when `clonesFinish` is off and `clonesCount > 0`, moreover
`clonesWidth - itemWidth[lastIndex] < target`. -/
theorem bounded_overshoot (o : FillerOptions) (cw : Int) (item : List Element)
    (hne : item ≠ []) (hpos : ∀ el ∈ item, 0 < measure el) (hmin : o.clonesMin = 0) :
    (∀ fuel, fuelBound o cw (item.map measure) ≤ fuel →
      (getCalcData fuel o cw item).isSome = true) ∧
    ∀ fuel d, getCalcData fuel o cw item = some d →
      JSNum.lt d.clonesWidth
        (JSNum.num (max (fillTarget o cw (item.map measure)) 0 + d.itemsWidth)) = true ∧
      (o.clonesFinish = false → 0 < d.clonesCount →
        JSNum.lt (JSNum.sub d.clonesWidth (jsIndex d.itemWidth d.lastIndex))
          (JSNum.num (fillTarget o cw (item.map measure))) = true) := by
  have hne2 : item.map measure ≠ [] := by simpa using hne
  have hpos2 := measure_map_pos hpos
  have hlen : 0 < (item.map measure).length := List.length_pos.mpr hne2
  obtain ⟨N, hok, hleast, hret, huniq⟩ := getCalcData_result o cw item hne hpos
  obtain ⟨h1, h2⟩ := plan_overshoot hne2 hpos2 o cw hmin N hok hleast
  refine ⟨fun fuel hf => by rw [hret fuel hf]; rfl, fun fuel d hd => ?_⟩
  rw [huniq fuel d hd]
  refine ⟨?_, fun hf hN => ?_⟩
  · simpa [planAt, JSNum.lt] using h1
  · have hN2 : 0 < N := hN
    have hidx := jsIndex_jsMod hne2 (N - 1)
    rw [jsMod, if_neg (Nat.pos_iff_ne_zero.mp hlen)] at hidx
    have hli : lastIndexOf (item.map measure) N = (N - 1) % (item.map measure).length := by
      simp [lastIndexOf, Nat.pos_iff_ne_zero.mp hN2]
    simp only [planAt, hli, hidx, JSNum.sub, JSNum.lt, decide_eq_true_eq]
    exact h2 hf hN2

/-- Witness of C16: three items of width 100, overflow on, container 250.  The
plan has 3 clones of total width 300, which is below 250 + 300, and
300 - 100 is below the target 250. -/
theorem bounded_overshoot_witness :
    ∃ d, getCalcData 750 Reeller.defaultOptions.filler 250 threeItems = some d ∧
      d.clonesCount = 3 ∧ d.clonesWidth = JSNum.num 300 ∧
      JSNum.lt d.clonesWidth
        (JSNum.num (max (fillTarget Reeller.defaultOptions.filler 250 (threeItems.map measure)) 0
          + d.itemsWidth)) = true ∧
      JSNum.lt (JSNum.sub d.clonesWidth (jsIndex d.itemWidth d.lastIndex))
        (JSNum.num (fillTarget Reeller.defaultOptions.filler 250 (threeItems.map measure)))
        = true := by
  have h := bounded_overshoot Reeller.defaultOptions.filler 250 threeItems
    (by decide) (by decide) rfl
  have he : getCalcData 750 Reeller.defaultOptions.filler 250 threeItems
      = some (planAt 250 [100, 100, 100] 3) := by decide
  obtain ⟨h1, h2⟩ := h.2 750 _ he
  exact ⟨_, he, rfl, rfl, h1, h2 rfl (by decide)⟩

theorem whileLoop_zero_width (o : FillerOptions) (width : Int) (hw : 0 < width) :
    ∀ (fuel : Nat) (d : CalcData), d.clonesWidth = JSNum.num 0 → d.itemWidth = [0] →
      whileLoop o 1 width fuel d = none := by
  intro fuel
  induction fuel with
  | zero =>
    intro d h1 _
    apply whileLoop_exhausted
    simp [loopCond, h1, JSNum.gt, hw]
  | succ fuel ih =>
    intro d h1 h2
    have hc : loopCond o 1 width d = true := by
      simp [loopCond, h1, JSNum.gt, hw]
    rw [whileLoop_step _ _ _ _ _ hc]
    apply ih
    · simp [loopBody, h1, h2, jsMod, jsIndex, JSNum.add, Nat.mod_one]
    · simp [loopBody, h2]

/-- C20 (termination of the fill loop): on every non-empty item list of
positive widths, for every container width, every `clonesMin >= 0` and both
policy flags, the loop of `getCalcData` ends within `fuelBound` rounds and every
larger budget gives the same result; whereas on a single item of width zero
with container width 1 (target 1) no budget suffices: the loop never ends. -/
theorem fill_loop_termination :
    (∀ (o : FillerOptions) (cw : Int) (item : List Element),
      item ≠ [] → (∀ el ∈ item, 0 < measure el) → 0 ≤ o.clonesMin →
      ∃ d, getCalcData (fuelBound o cw (item.map measure)) o cw item = some d ∧
        d.clonesCount ≤ fuelBound o cw (item.map measure) ∧
        ∀ fuel, fuelBound o cw (item.map measure) ≤ fuel →
          getCalcData fuel o cw item = some d) ∧
    ([zeroWidthItem] ≠ [] ∧ (∀ el ∈ [zeroWidthItem], measure el = 0) ∧
      0 < fillTarget Filler.defaultOptions 1 ([zeroWidthItem].map measure) ∧
      ∀ fuel, getCalcData fuel Filler.defaultOptions 1 [zeroWidthItem] = none) := by
  refine ⟨fun o cw item hne hpos _ => ?_, by decide, by decide, by decide, fun fuel => ?_⟩
  · have hne2 : item.map measure ≠ [] := by simpa using hne
    obtain ⟨N, hok, hleast, hret, _⟩ := getCalcData_result o cw item hne hpos
    refine ⟨_, hret _ (le_refl _), ?_, hret⟩
    show N ≤ fuelBound o cw (item.map measure)
    by_contra hc
    exact hleast _ (not_le.mp hc) (planOk_fuelBound hne2 (measure_map_pos hpos) o cw)
  · have h := whileLoop_zero_width Filler.defaultOptions 1 (by decide) fuel
      ([zeroWidthItem].foldl measureStep (initData 1)) rfl rfl
    have hw : (if Filler.defaultOptions.clonesOverflow
        then ([zeroWidthItem].foldl measureStep (initData 1)).containerWidth
        else ([zeroWidthItem].foldl measureStep (initData 1)).containerWidth
          - ([zeroWidthItem].foldl measureStep (initData 1)).itemsWidth) = 1 := by decide
    have hl : ([zeroWidthItem].foldl measureStep (initData 1)).itemWidth.length = 1 := rfl
    simp only [getCalcData, hw, hl, h, Option.map_none']

/-- Witness of C20: on three items of width 100 with container width 500 the
loop ends after 2 rounds, within the budget bound. -/
theorem fill_loop_termination_witness :
    threeItems ≠ [] ∧ (∀ el ∈ threeItems, 0 < measure el) ∧
    ∃ d, getCalcData (fuelBound Filler.defaultOptions 500 (threeItems.map measure))
        Filler.defaultOptions 500 threeItems = some d ∧ d.clonesCount = 2 := by
  have hne : threeItems ≠ [] := by decide
  have hpos : ∀ el ∈ threeItems, 0 < measure el := by decide
  obtain ⟨d, hd, _, _⟩ :=
    fill_loop_termination.1 Filler.defaultOptions 500 threeItems hne hpos (by decide)
  have he : getCalcData (fuelBound Filler.defaultOptions 500 (threeItems.map measure))
      Filler.defaultOptions 500 threeItems = some (planAt 500 [100, 100, 100] 2) := by decide
  rw [he] at hd
  cases hd
  exact ⟨hne, hpos, _, he, rfl⟩

/-! ## Claims on refresh and the play state -/

theorem dropMarked_all (l : List Element) :
    dropMarked (l.filter fun e => e.cloneClass).length l = l.filter fun e => !e.cloneClass := by
  induction l with
  | nil => rfl
  | cons e l ih =>
    cases he : e.cloneClass with
    | true => simpa [dropMarked, he] using ih
    | false =>
      cases hn : (l.filter fun e => e.cloneClass).length with
      | zero =>
        rw [hn] at ih
        have h0 : dropMarked 0 l = l := by cases l <;> rfl
        rw [h0] at ih
        simp [dropMarked, he, hn, ← ih]
      | succ n =>
        rw [hn] at ih
        simp [dropMarked, he, hn, ih]

theorem removeClones_zero (s : Filler) :
    (s.removeClones 0).wrapper = s.wrapper.filter fun e => !e.cloneClass := by
  have h := dropMarked_all s.wrapper.reverse
  simp only [List.filter_reverse, List.length_reverse] at h
  simp only [Filler.removeClones, jsSliceLast, if_true, Filler.clones, h, List.reverse_reverse]

/-- C18 (refresh resets the clone state): on every filler state `refresh(false)`
returns; it removes every clone-marked element from the track (the default
count 0 of `removeClones` removes all of them), sets `clonesCount` to 0 and
`calcData` to `{}`, sets the item list to the remaining elements that match the
item selector, in track order, and emits `refresh` once and nothing else.
`refresh(true)` is `refresh(false)` followed by one `update()`. -/
theorem refresh_resets (s : Filler) (fuel : Nat) (cw : Int) :
    ∃ s1, s.refresh fuel cw false = Except.ok s1 ∧
      s1.wrapper = (s.wrapper.filter fun e => !e.cloneClass) ∧
      s1.clones = [] ∧
      s1.clonesCount = 0 ∧
      s1.calcData = none ∧
      s1.item = ((s.wrapper.filter fun e => !e.cloneClass).filter fun e => e.isItem) ∧
      s1.log = s.log ++ [FillerEffect.refresh] ∧
      s.refresh fuel cw true = s1.update fuel cw := by
  refine ⟨_, rfl, ?_, ?_, rfl, rfl, ?_, rfl, rfl⟩
  · exact removeClones_zero s
  · show ((s.removeClones 0).wrapper.filter fun e => e.cloneClass) = []
    rw [removeClones_zero, List.filter_filter]
    simp
  · show ((s.removeClones 0).wrapper.filter fun e => e.isItem) = _
    rw [removeClones_zero]

theorem construct_paused (registry : List (String × Plugin)) (fuel : Nat) (cw : Int)
    (o : ReellerOptions) (wrapper : List Element) (r0 : Reeller)
    (h : Reeller.construct registry fuel cw o wrapper = Except.ok r0) :
    r0.paused = o.paused ∧ r0.tl.paused = o.paused ∧ r0.tl.reversed = o.reversed := by
  unfold Reeller.construct at h
  cases hf : Filler.construct fuel cw o.filler wrapper with
  | error e => rw [hf] at h; cases h
  | ok filler =>
    rw [hf] at h
    cases h
    exact ⟨rfl, rfl, rfl⟩

/-- C19 (play-state transitions): `resume()` yields `paused = false` and
`pause()` yields `paused = true`, both leaving the direction as it was;
`reverse(flag)` yields `paused = false` and `reversed = flag` and emits `resume`
and then `reverse` with the flag; and a controller whose paused flag agrees
with the timeline, as every controller does when its constructor returns,
keeps that agreement through any sequence of calls. -/
theorem play_state (r : Reeller) :
    (r.resume.paused = false ∧ r.resume.tl.reversed = r.tl.reversed) ∧
    (r.pause.paused = true ∧ r.pause.tl.reversed = r.tl.reversed) ∧
    (∀ flag, (r.reverse flag).paused = false ∧ (r.reverse flag).tl.reversed = flag ∧
      (r.reverse flag).log = r.log ++ [ReellerEffect.tlReversed flag]
        ++ [ReellerEffect.gsapSet "container" "z: 0",
            ReellerEffect.gsapSet "wrapper" "willChange: transform",
            ReellerEffect.tlResume, ReellerEffect.trigger "resume"]
        ++ [ReellerEffect.triggerReverse flag]) ∧
    (∀ actions : List Action, r.paused = r.tl.paused →
      (r.run actions).paused = (r.run actions).tl.paused) ∧
    (∀ (registry : List (String × Plugin)) (fuel : Nat) (cw : Int) (o : ReellerOptions)
      (wrapper : List Element) (r0 : Reeller) (actions : List Action),
      Reeller.construct registry fuel cw o wrapper = Except.ok r0 →
      r0.paused = o.paused ∧ r0.tl.paused = o.paused ∧ r0.tl.reversed = o.reversed ∧
      (r0.run actions).paused = (r0.run actions).tl.paused) := by
  have hinv : ∀ (actions : List Action) (q : Reeller), q.paused = q.tl.paused →
      (q.run actions).paused = (q.run actions).tl.paused := by
    intro actions
    induction actions with
    | nil => intro q h; exact h
    | cons a rest ih =>
      intro q _
      have hstep : q.run (a :: rest) = (q.step a).run rest := rfl
      rw [hstep]
      apply ih
      cases a with
      | resume => rfl
      | pause => rfl
      | reverse flag => rfl
      | visibility b => cases b <;> rfl
  refine ⟨⟨rfl, rfl⟩, ⟨rfl, rfl⟩, fun flag => ⟨rfl, rfl, rfl⟩, fun actions h => hinv actions r h,
    fun registry fuel cw o wrapper r0 actions h => ?_⟩
  obtain ⟨h1, h2, h3⟩ := construct_paused registry fuel cw o wrapper r0 h
  exact ⟨h1, h2, h3, hinv actions r0 (h1.trans h2.symm)⟩

/-- Witness of C19: a controller constructed with the default options (paused,
forward) after `reverse(true)` and `pause()` is paused, reversed, and agrees
with its timeline. -/
theorem play_state_witness :
    ∃ r0, Reeller.construct [] 0 500 Reeller.defaultOptions threeItems = Except.ok r0 ∧
      r0.paused = r0.tl.paused ∧
      (r0.run [Action.reverse true, Action.pause]).paused = true ∧
      (r0.run [Action.reverse true, Action.pause]).tl.paused = true ∧
      (r0.run [Action.reverse true, Action.pause]).tl.reversed = true := by
  obtain ⟨r0, hr0⟩ : ∃ r0, Reeller.construct [] 0 500 Reeller.defaultOptions threeItems
      = Except.ok r0 := ⟨_, rfl⟩
  obtain ⟨h1, h2, _, _⟩ := (play_state r0).2.2.2.2 [] 0 500 Reeller.defaultOptions threeItems r0
    [] hr0
  have hpq : r0.paused = r0.tl.paused := h1.trans h2.symm
  have h := (play_state r0).2.2.2.1 [Action.reverse true, Action.pause] hpq
  have hp : (r0.run [Action.reverse true, Action.pause]).paused = true := rfl
  exact ⟨r0, hr0, hpq, hp, h ▸ hp, rfl⟩

/-! ## Claims on the direction of the scroller -/

theorem tickerRun_concat (o : ScrollerPluginOptions) (paused : Bool) (scrollPos : ℚ) :
    ∀ (pre : List (Bool × ℚ)) (st : TickerState),
      (tickerRun o (pre ++ [(paused, scrollPos)]) st).1
        = (tickerFn o paused scrollPos (tickerRun o pre st).1).1 := by
  intro pre
  induction pre with
  | nil => intro st; rfl
  | cons a pre ih =>
    intro st
    obtain ⟨q, x⟩ := a
    have hstep : ∀ (l : List (Bool × ℚ)),
        (tickerRun o ((q, x) :: l) st).1 = (tickerRun o l (tickerFn o q x st).1).1 :=
      fun _ => rfl
    rw [List.cons_append, hstep, hstep, ih]

theorem jsSign_of_ne_zero {v : ℚ} (h : v ≠ 0) : jsSign v = 1 ∨ jsSign v = -1 := by
  rcases lt_or_gt_of_ne h with hneg | hpos
  · exact Or.inr (jsSign_neg hneg)
  · exact Or.inl (jsSign_pos hpos)

theorem jsSign_mul_pos (v m : ℚ) (hm : 0 < m) : jsSign (v * m) = jsSign v := by
  rcases lt_trichotomy v 0 with hneg | hzero | hpos
  · rw [jsSign_neg hneg, jsSign_neg (mul_neg_of_neg_of_pos hneg hm)]
  · subst hzero
    rw [zero_mul]
  · rw [jsSign_pos hpos, jsSign_pos (mul_pos hpos hm)]

theorem tickerFn_moving (o : ScrollerPluginOptions) (paused : Bool) (scrollPos : ℚ)
    (st : TickerState) (h : (tickerFn o paused scrollPos st).1.reachedEnd = false) :
    paused = false ∧ adjustedVelocity o st.lastScrollPos scrollPos ≠ 0 ∧
    tickerFn o paused scrollPos st
      = ({ lastScrollPos := scrollPos,
           lastDirection := jsSign (adjustedVelocity o st.lastScrollPos scrollPos),
           reachedEnd := false },
         [TickEffect.tweenTo (targetTimeScale o (adjustedVelocity o st.lastScrollPos scrollPos))
            o.speed o.ease o.overwrite]) := by
  cases paused with
  | true => simp [tickerFn] at h
  | false =>
    by_cases hv : adjustedVelocity o st.lastScrollPos scrollPos = 0
    · cases hr : st.reachedEnd <;> simp [tickerFn, hv, hr] at h
    · refine ⟨rfl, hv, ?_⟩
      simp [tickerFn, hv]

theorem tickerStateAfter_moving (o : ScrollerPluginOptions) (start : ℚ)
    (inputs : List (Bool × ℚ))
    (h : (tickerStateAfter o start inputs).reachedEnd = false) :
    ∃ pre scrollPos, inputs = pre ++ [(false, scrollPos)] ∧
      adjustedVelocity o (tickerStateAfter o start pre).lastScrollPos scrollPos ≠ 0 ∧
      tickerFn o false scrollPos (tickerStateAfter o start pre)
        = (tickerStateAfter o start inputs,
           [TickEffect.tweenTo
              (targetTimeScale o
                (adjustedVelocity o (tickerStateAfter o start pre).lastScrollPos scrollPos))
              o.speed o.ease o.overwrite]) ∧
      (tickerStateAfter o start inputs).lastDirection
        = jsSign (adjustedVelocity o (tickerStateAfter o start pre).lastScrollPos scrollPos) := by
  rcases List.eq_nil_or_concat inputs with hnil | ⟨pre, a, hcat⟩
  · subst hnil
    simp [tickerStateAfter, tickerRun, TickerState.init] at h
  · obtain ⟨paused, scrollPos⟩ := a
    rw [List.concat_eq_append] at hcat
    subst hcat
    have hst : tickerStateAfter o start (pre ++ [(paused, scrollPos)])
        = (tickerFn o paused scrollPos (tickerStateAfter o start pre)).1 :=
      tickerRun_concat o paused scrollPos pre (TickerState.init start)
    rw [hst] at h ⊢
    obtain ⟨hp, hv, heq⟩ := tickerFn_moving o paused scrollPos _ h
    subst hp
    refine ⟨pre, scrollPos, rfl, hv, ?_, ?_⟩
    · rw [heq]
    · rw [heq]

/-- C21 (scroller direction invariant): in every state reached from `init` by
any sequence of ticks, hence at the start of every tick, a plugin in the moving
state (`reachedEnd` false) has `lastDirection` equal to 1 or -1.  Hence, with
`stopOnEnd` off and `threshold > 0`, the settle tick (controller playing, zero
velocity, moving state) cancels and starts one tween whose target is exactly
`threshold` or `-threshold`, never 0; and for `multiplier > 0` the tick before
it was a moving tick and the sign of the settle target is the sign of that
tick's target speed. -/
theorem direction_invariant (o : ScrollerPluginOptions) (start : ℚ)
    (inputs : List (Bool × ℚ)) :
    ((tickerStateAfter o start inputs).reachedEnd = false →
      (tickerStateAfter o start inputs).lastDirection = 1 ∨
      (tickerStateAfter o start inputs).lastDirection = -1) ∧
    ∀ scrollPos,
      adjustedVelocity o (tickerStateAfter o start inputs).lastScrollPos scrollPos = 0 →
      (tickerStateAfter o start inputs).reachedEnd = false →
      o.stopOnEnd = false → 0 < o.threshold →
      ∃ t, (tickerFn o false scrollPos (tickerStateAfter o start inputs)).2
            = [TickEffect.killTweensOf, TickEffect.tweenTo t o.speed o.ease o.overwrite] ∧
        (t = o.threshold ∨ t = -o.threshold) ∧ t ≠ 0 ∧
        (0 < o.multiplier →
          ∃ pre movePos, inputs = pre ++ [(false, movePos)] ∧
            adjustedVelocity o (tickerStateAfter o start pre).lastScrollPos movePos ≠ 0 ∧
            (tickerFn o false movePos (tickerStateAfter o start pre)).2
              = [TickEffect.tweenTo
                  (targetTimeScale o
                    (adjustedVelocity o (tickerStateAfter o start pre).lastScrollPos movePos))
                  o.speed o.ease o.overwrite] ∧
            jsSign t = jsSign (targetTimeScale o
              (adjustedVelocity o (tickerStateAfter o start pre).lastScrollPos movePos))) := by
  refine ⟨fun hr => ?_, fun scrollPos hzero hr hstop hth => ?_⟩
  · obtain ⟨pre, movePos, _, hv, _, hdir⟩ := tickerStateAfter_moving o start inputs hr
    rw [hdir]
    exact jsSign_of_ne_zero hv
  · obtain ⟨pre, movePos, hin, hv, htick, hdir⟩ := tickerStateAfter_moving o start inputs hr
    have heff : (tickerFn o false scrollPos (tickerStateAfter o start inputs)).2
        = [TickEffect.killTweensOf,
           TickEffect.tweenTo ((tickerStateAfter o start inputs).lastDirection * o.threshold)
            o.speed o.ease o.overwrite] := by
      simp [tickerFn, hzero, hr, hstop]
    refine ⟨_, heff, ?_, ?_, fun hm => ⟨pre, movePos, hin, hv, by rw [htick], ?_⟩⟩
    · rcases jsSign_of_ne_zero hv with h1 | h1
      · left; rw [hdir, h1, one_mul]
      · right; rw [hdir, h1, neg_one_mul]
    · rcases jsSign_of_ne_zero hv with h1 | h1
      · rw [hdir, h1, one_mul]; exact ne_of_gt hth
      · rw [hdir, h1, neg_one_mul]; exact ne_of_lt (neg_neg_of_pos hth)
    · have hne : adjustedVelocity o (tickerStateAfter o start pre).lastScrollPos movePos
          * o.multiplier ≠ 0 := mul_ne_zero hv (ne_of_gt hm)
      have htarget : jsSign (targetTimeScale o
          (adjustedVelocity o (tickerStateAfter o start pre).lastScrollPos movePos))
          = jsSign (adjustedVelocity o (tickerStateAfter o start pre).lastScrollPos movePos
              * o.multiplier) := (target_sign_abs _ _ hne).1
      rw [htarget, jsSign_mul_pos _ _ hm, hdir]
      rcases jsSign_of_ne_zero hv with h1 | h1
      · rw [h1, one_mul]; exact jsSign_pos hth
      · rw [h1, neg_one_mul]; exact jsSign_neg (neg_neg_of_pos hth)

/-- Witness of C21, scenario D: after the tick from 0 to 10 the plugin is
moving with `lastDirection` 1, and the settle tick at 10 targets the threshold
1, whose sign is that of the moving target 5. -/
theorem direction_invariant_witness :
    (tickerStateAfter ScrollerPlugin.defaultOptions 0 [(false, 10)]).reachedEnd = false ∧
    (tickerStateAfter ScrollerPlugin.defaultOptions 0 [(false, 10)]).lastDirection = 1 ∧
    ∃ t, (tickerFn ScrollerPlugin.defaultOptions false 10
          (tickerStateAfter ScrollerPlugin.defaultOptions 0 [(false, 10)])).2
        = [TickEffect.killTweensOf, TickEffect.tweenTo t 1 "expo.out" true] ∧
      (t = 1 ∨ t = -1) ∧ t ≠ 0 := by
  have hv : adjustedVelocity ScrollerPlugin.defaultOptions (TickerState.init 0).lastScrollPos 10
      = 10 := by
    norm_num [adjustedVelocity, ScrollerPlugin.defaultOptions, TickerState.init]
  have hst : tickerStateAfter ScrollerPlugin.defaultOptions 0 [(false, 10)]
      = { lastScrollPos := 10, lastDirection := 1, reachedEnd := false } := by
    simp only [tickerStateAfter, tickerRun, tickerFn, hv]
    norm_num [jsSign]
  have h := direction_invariant ScrollerPlugin.defaultOptions 0 [(false, 10)]
  have hr : (tickerStateAfter ScrollerPlugin.defaultOptions 0 [(false, 10)]).reachedEnd
      = false := by rw [hst]
  have hz : adjustedVelocity ScrollerPlugin.defaultOptions
      (tickerStateAfter ScrollerPlugin.defaultOptions 0 [(false, 10)]).lastScrollPos 10 = 0 := by
    rw [hst]; exact adjustedVelocity_self _ _
  obtain ⟨t, h1, h2, h3, _⟩ := h.2 10 hz hr rfl (by norm_num [ScrollerPlugin.defaultOptions])
  exact ⟨hr, by rw [hst], t, h1, h2, h3⟩

/-! ## Refreshing and constructing over a track of items -/

theorem filter_eq_self_of_items (l : List Element)
    (h : ∀ e ∈ l, e.cloneClass = false ∧ e.isItem = true) :
    (l.filter fun e => !e.cloneClass) = l ∧ (l.filter fun e => e.isItem) = l := by
  constructor
  · apply List.filter_eq_self.mpr
    intro e he
    simp [(h e he).1]
  · apply List.filter_eq_self.mpr
    intro e he
    exact (h e he).2

/-- On a track whose children all match the item selector and carry no clone
class, `refresh(false)` leaves a filler whose track is exactly its item list,
with no clone counted: the starting point of seamless tiling. -/
theorem refresh_item_track (s : Filler) (fuel : Nat) (cw : Int)
    (h : ∀ e ∈ s.wrapper, e.cloneClass = false ∧ e.isItem = true) :
    ∃ s0, s.refresh fuel cw false = Except.ok s0 ∧ s0.wrapper = s0.item ∧
      s0.item = s.wrapper ∧ s0.clonesCount = 0 := by
  obtain ⟨h1, h2⟩ := filter_eq_self_of_items s.wrapper h
  refine ⟨_, rfl, ?_, ?_, rfl⟩
  · show (s.removeClones 0).wrapper = ((s.removeClones 0).wrapper.filter fun e => e.isItem)
    rw [removeClones_zero, h1, h2]
  · show ((s.removeClones 0).wrapper.filter fun e => e.isItem) = s.wrapper
    rw [removeClones_zero, h1, h2]

end Cuberto
